import Mathlib

/-!
Verification development for the contract-ingestion and risk-analysis pipeline
(`src/agents/ingestion/main.py` and `src/agents/risk_analysis/main.py`).

Python values are shallowly embedded as `PyValue` (JSON-like data: `None`,
`bool`, `int`, `float`, `str`, `list`, `dict`).  Python floats are modelled as
rationals: every float literal appearing in the source and in the claims is
finite, and the comparisons performed on them are order-comparisons that the
rational embedding reflects faithfully.  Fallible Python code is embedded in
`Except PyErr`; raising an exception is returning `Except.error`.
Machine-external effects (the Textract OCR service, the Bedrock model calls,
`uuid.uuid4`) are supplied as explicit oracle parameters.
-/

/-- A single-quote character, used when rendering Python `repr` strings. -/
def pySQuote : String := String.mk [Char.ofNat 39]

/-- Shallow embedding of the Python/JSON values the pipeline manipulates.
`dict` is an association list in insertion order (Python dicts preserve
insertion order and have unique keys). -/
inductive PyValue where
  | none : PyValue
  | bool : Bool → PyValue
  | int : Int → PyValue
  | float : ℚ → PyValue
  | str : String → PyValue
  | list : List PyValue → PyValue
  | dict : List (String × PyValue) → PyValue

/-- Embedding of Python exceptions raised by the modelled code, carrying the
exception class and the message (`str(e)`). -/
inductive PyErr where
  | valueError (msg : String)
  | typeError (msg : String)
  | keyError (key : String)
  | attributeError (msg : String)
  | jsonDecodeError (msg : String)
  | clientError (msg : String)
  | runtimeError (msg : String)
  | timeoutError (msg : String)
deriving DecidableEq

/-- `type(e).__name__` for a modelled exception. -/
def PyErr.name : PyErr → String
  | .valueError _ => "ValueError"
  | .typeError _ => "TypeError"
  | .keyError _ => "KeyError"
  | .attributeError _ => "AttributeError"
  | .jsonDecodeError _ => "JSONDecodeError"
  | .clientError _ => "ClientError"
  | .runtimeError _ => "RuntimeError"
  | .timeoutError _ => "TimeoutError"

/-- `str(e)` for a modelled exception (for `KeyError`, Python renders the
missing key in quotes). -/
def PyErr.msg : PyErr → String
  | .valueError m => m
  | .typeError m => m
  | .keyError k => pySQuote ++ k ++ pySQuote
  | .attributeError m => m
  | .jsonDecodeError m => m
  | .clientError m => m
  | .runtimeError m => m
  | .timeoutError m => m

/-- Python `v is None`. -/
def PyValue.isNone : PyValue → Bool
  | .none => true
  | _ => false

/-- First-match association-list lookup: the value bound to `key`, if any.
On dicts with unique keys this is exactly Python dict lookup. -/
def pyLookup : List (String × PyValue) → String → Option PyValue
  | [], _ => Option.none
  | (k, v) :: rest, key => if k = key then some v else pyLookup rest key

/-- Python `d.get(key)`: the bound value, or `None` when the key is absent. -/
def pyGet (kvs : List (String × PyValue)) (key : String) : PyValue :=
  (pyLookup kvs key).getD PyValue.none

/-- Python truthiness (`bool(v)`) for the embedded values. -/
def pyTruthy : PyValue → Bool
  | .none => false
  | .bool b => b
  | .int n => n ≠ 0
  | .float q => q ≠ 0
  | .str s => s ≠ ""
  | .list xs => ¬ xs.isEmpty
  | .dict kvs => ¬ kvs.isEmpty

/-- The closed 7-field extraction schema (`FIELDS` in
`src/agents/ingestion/main.py`). -/
def FIELDS : List String :=
  ["governing_law", "termination_clause", "liability_clause", "indemnity_clause",
   "data_protection", "payment_terms", "renewal_terms"]

/-- The closed 5-field risk schema (`RISK_KEYS` in
`src/agents/risk_analysis/main.py`). -/
def RISK_KEYS : List String :=
  ["overall_risk", "liability_risk", "termination_risk", "financial_risk", "rationale"]

/-- The four numeric score fields of the risk schema, in the order the source
iterates over them. -/
def RISK_SCORE_KEYS : List String :=
  ["overall_risk", "liability_risk", "termination_risk", "financial_risk"]

/-- Python `isinstance(v, (int, float))`.  In Python `bool` is a subtype of
`int`, so booleans pass this check. -/
def pyIsNumber : PyValue → Bool
  | .bool _ => true
  | .int _ => true
  | .float _ => true
  | _ => false

/-- The numeric value of an `int`/`float`/`bool` (Python `True == 1`,
`False == 0`); `none` for non-numbers. -/
def pyNumVal : PyValue → Option ℚ
  | .bool b => some (if b then 1 else 0)
  | .int n => some (n : ℚ)
  | .float q => some q
  | _ => Option.none

/-- Python `isinstance(v, str)`. -/
def PyValue.isStr : PyValue → Bool
  | .str _ => true
  | _ => false

/-- The whitespace characters stripped by Python `str.strip()` / split by
`str.split()` (the ASCII whitespace class; the source text is ASCII). -/
def pyIsSpace (c : Char) : Bool :=
  c = ' ' ∨ c = '\t' ∨ c = '\n' ∨ c = '\r' ∨ c = Char.ofNat 11 ∨ c = Char.ofNat 12

/-- Python `str.strip()` on a character list: drop whitespace from both ends. -/
def stripChars (cs : List Char) : List Char :=
  ((cs.dropWhile pyIsSpace).reverse.dropWhile pyIsSpace).reverse

/-- Python `str.strip()`. -/
def pyStrip (s : String) : String :=
  String.mk (stripChars s.toList)

/-- Stable insertion into an ascending list of strings (helper for
`pySorted`). -/
def pySortInsert (a : String) : List String → List String
  | [] => [a]
  | b :: rest => if a ≤ b then a :: b :: rest else b :: pySortInsert a rest

/-- Python `sorted` on a list of strings (lexicographic ascending). -/
def pySorted (l : List String) : List String :=
  l.foldr pySortInsert []

/-- Python `repr` of a list of (simple) strings, as interpolated into the
validators' f-string error messages: `['a', 'b']`. -/
def pyReprStrList (xs : List String) : String :=
  "[" ++ String.intercalate ", " (xs.map (fun s => pySQuote ++ s ++ pySQuote)) ++ "]"

/-- The score-field loop of `_validate_risk_output`
(`src/agents/risk_analysis/main.py` lines 56-61): for each key in order,
`obj.get(k)` must satisfy `isinstance(v, (int, float))` (booleans qualify:
`bool` is a subtype of `int` in Python) and `0 ≤ v ≤ 10`. -/
def checkRiskScores (kvs : List (String × PyValue)) : List String → Except PyErr Unit
  | [] => .ok ()
  | k :: rest =>
    match pyNumVal (pyGet kvs k) with
    | Option.none =>
        .error (.valueError ("Field " ++ pySQuote ++ k ++ pySQuote ++ " must be a number"))
    | some v =>
        if v < 0 ∨ v > 10 then
          .error (.valueError ("Field " ++ pySQuote ++ k ++ pySQuote ++ " must be between 0 and 10"))
        else checkRiskScores kvs rest

/-- `_validate_risk_output` (`src/agents/risk_analysis/main.py` lines 43-64):
closed 5-key schema, numeric scores in `[0, 10]`, non-blank string rationale.
Checks fail fast in source order: not-a-dict, unexpected keys, missing keys,
score type/range, rationale. -/
def _validate_risk_output (obj : PyValue) : Except PyErr Unit :=
  match obj with
  | .dict kvs =>
    let keys := kvs.map Prod.fst
    let extra := pySorted ((keys.filter (fun k => ¬ RISK_KEYS.contains k)).dedup)
    if ¬ extra.isEmpty then
      .error (.valueError ("Unexpected fields in risk output: " ++ pyReprStrList extra))
    else
      let missing := RISK_KEYS.filter (fun k => ¬ keys.contains k)
      if ¬ missing.isEmpty then
        .error (.valueError ("Missing required fields in risk output: " ++ pyReprStrList missing))
      else
        match checkRiskScores kvs RISK_SCORE_KEYS with
        | .error e => .error e
        | .ok _ =>
          match pyGet kvs "rationale" with
          | .str r =>
            if pyStrip r = "" then
              .error (.valueError ("Field " ++ pySQuote ++ "rationale" ++ pySQuote ++
                " must be a non-empty string"))
            else .ok ()
          | _ =>
            .error (.valueError ("Field " ++ pySQuote ++ "rationale" ++ pySQuote ++
              " must be a non-empty string"))
  | _ => .error (.valueError "Risk output is not an object")

/-- Python `risk[k]` subscripting: `KeyError` when the key is absent,
`TypeError` when the value is not a dict. -/
def pyIndex (v : PyValue) (key : String) : Except PyErr PyValue :=
  match v with
  | .dict kvs =>
    match pyLookup kvs key with
    | some x => .ok x
    | Option.none => .error (.keyError key)
  | _ => .error (.typeError "value is not subscriptable with a string key")

/-- Python `float(v)` on the values reachable in `_high_risk_flag`
(`True → 1.0`, `False → 0.0`, numbers unchanged).  `float` applied to a
string parses it in Python; that case is unreachable here because the flag
is only applied to records whose scores passed `_validate_risk_output`'s
number check, so it is modelled as an error. -/
def pyFloatFn : PyValue → Except PyErr ℚ
  | .bool b => .ok (if b then 1 else 0)
  | .int n => .ok (n : ℚ)
  | .float q => .ok q
  | .str s =>
    .error (.valueError ("could not convert string to float: " ++ pySQuote ++ s ++ pySQuote))
  | v => .error (.typeError ("float() argument must be a string or a real number, not " ++
      (match v with
       | .none => "NoneType"
       | .list _ => "list"
       | .dict _ => "dict"
       | _ => "object")))

/-- The generator inside `_high_risk_flag`'s `any(...)`: lazily evaluates
`float(risk[k]) > threshold` for each key in order, short-circuiting on the
first `True` (so a later missing key raises no error once a score exceeded
the threshold, exactly as Python's `any` over a generator behaves). -/
def anyExceeds (threshold : ℚ) (risk : PyValue) : List String → Except PyErr Bool
  | [] => .ok false
  | k :: rest =>
    match pyIndex risk k with
    | .error e => .error e
    | .ok v =>
      match pyFloatFn v with
      | .error e => .error e
      | .ok q => if q > threshold then .ok true else anyExceeds threshold risk rest

/-- Default of the `HIGH_RISK_THRESHOLD` env var:
`float(os.environ.get("HIGH_RISK_THRESHOLD", "7"))`. -/
def HIGH_RISK_THRESHOLD_default : ℚ := 7

/-- `_high_risk_flag` (`src/agents/risk_analysis/main.py` lines 163-170):
`any(float(risk[k]) > threshold for k in [overall, liability, termination,
financial])`.  The configured threshold (module-level
`HIGH_RISK_THRESHOLD`, default 7) is passed explicitly. -/
def _high_risk_flag (threshold : ℚ) (risk : PyValue) : Except PyErr Bool :=
  anyExceeds threshold risk RISK_SCORE_KEYS

/-- The field-type loop of `_validate_schema_minimal`
(`src/agents/ingestion/main.py` lines 116-120): each field's `obj.get(k)`
must be `None` or a string. -/
def checkExtractionFieldTypes (kvs : List (String × PyValue)) : List String → Except PyErr Unit
  | [] => .ok ()
  | k :: rest =>
    let v := pyGet kvs k
    if ¬ v.isNone ∧ ¬ v.isStr then
      .error (.valueError ("Field " ++ pySQuote ++ k ++ pySQuote ++ " must be string or null"))
    else checkExtractionFieldTypes kvs rest

/-- `_validate_schema_minimal` (`src/agents/ingestion/main.py` lines 98-122):
the closed 7-field extraction schema.  Checks fail fast in source order:
(a) not-a-dict, (b) unexpected keys, (c) missing required keys, (d) field
values must be string or null. -/
def _validate_schema_minimal (obj : PyValue) : Except PyErr Unit :=
  match obj with
  | .dict kvs =>
    let keys := kvs.map Prod.fst
    let extra := pySorted ((keys.filter (fun k => ¬ FIELDS.contains k)).dedup)
    if ¬ extra.isEmpty then
      .error (.valueError ("Unexpected fields in output: " ++ pyReprStrList extra))
    else
      let missing := FIELDS.filter (fun k => ¬ keys.contains k)
      if ¬ missing.isEmpty then
        .error (.valueError ("Missing required fields: " ++ pyReprStrList missing))
      else checkExtractionFieldTypes kvs FIELDS
  | _ => .error (.valueError "Extraction output is not an object")

/-- One step of `_merge_extractions`' outer loop: for each of the 7 fields,
fill `merged[k]` from `ext.get(k)` when `merged[k] is None` and the new value
`is not None`. -/
def mergeStep (merged : List (String × PyValue)) (ext : List (String × PyValue)) :
    List (String × PyValue) :=
  merged.map (fun kv =>
    (kv.1, if kv.2.isNone ∧ ¬ (pyGet ext kv.1).isNone then pyGet ext kv.1 else kv.2))

/-- `_merge_extractions` (`src/agents/ingestion/main.py` lines 340-346):
start from `{k: None for k in FIELDS}` and fill each field with the first
non-null value in chunk order (first-write-wins). -/
def _merge_extractions (extractions : List (List (String × PyValue))) :
    List (String × PyValue) :=
  extractions.foldl mergeStep (FIELDS.map (fun k => (k, PyValue.none)))

/-- The first non-`None` value of a list of Python values (`None` when every
value is `None`): the reference merge policy each merged field must satisfy. -/
def firstNonNull : List PyValue → PyValue
  | [] => PyValue.none
  | v :: rest => if v.isNone then firstNonNull rest else v

/-- First record of the spec's two-record merge example: `payment_terms`
is `"Net 30"`, every other field null. -/
def mergeExample1 : List (String × PyValue) :=
  [("governing_law", .none), ("termination_clause", .none), ("liability_clause", .none),
   ("indemnity_clause", .none), ("data_protection", .none), ("payment_terms", .str "Net 30"),
   ("renewal_terms", .none)]

/-- Second record of the spec's merge example: `governing_law` is `"NY"`,
`payment_terms` is `"Net 60"`, every other field null. -/
def mergeExample2 : List (String × PyValue) :=
  [("governing_law", .str "NY"), ("termination_clause", .none), ("liability_clause", .none),
   ("indemnity_clause", .none), ("data_protection", .none), ("payment_terms", .str "Net 60"),
   ("renewal_terms", .none)]

/-- Expected merge of the spec's example: `governing_law` `"NY"` (first
non-null comes from the second record), `payment_terms` `"Net 30"` (first
record wins), all other fields null. -/
def mergeExpected : List (String × PyValue) :=
  [("governing_law", .str "NY"), ("termination_clause", .none), ("liability_clause", .none),
   ("indemnity_clause", .none), ("data_protection", .none), ("payment_terms", .str "Net 30"),
   ("renewal_terms", .none)]

/-- The spec's schema-closure example: all 7 required fields plus an
`extra_field` key. -/
def schemaExtraFieldExample : List (String × PyValue) :=
  [("governing_law", .str "NY"), ("termination_clause", .none), ("liability_clause", .none),
   ("indemnity_clause", .none), ("data_protection", .none), ("payment_terms", .none),
   ("renewal_terms", .none), ("extra_field", .str "x")]

/-- A risk record with the four scores given as floats and the rationale as a
string, in the source's key order. -/
def mkRiskRecord (o l te f : ℚ) (rationale : String) : PyValue :=
  .dict [("overall_risk", .float o), ("liability_risk", .float l),
         ("termination_risk", .float te), ("financial_risk", .float f),
         ("rationale", .str rationale)]

/-- A risk record whose four scores are Python booleans. -/
def boolRiskRecord (b1 b2 b3 b4 : Bool) (rationale : String) : PyValue :=
  .dict [("overall_risk", .bool b1), ("liability_risk", .bool b2),
         ("termination_risk", .bool b3), ("financial_risk", .bool b4),
         ("rationale", .str rationale)]


/-- ASCII digit test for the JSON number parser. -/
def isJsonDigit (c : Char) : Bool :=
  ('0' ≤ c ∧ c ≤ '9')

/-- Skip JSON whitespace. -/
def skipWs (cs : List Char) : List Char :=
  cs.dropWhile pyIsSpace

/-- Parse the body of a JSON string after the opening quote, returning the
content and the remainder after the closing quote.  Handles the simple
escapes; `\uXXXX` escapes are not modelled (no input of this pipeline's
claims uses them). -/
def parseJsonString : List Char → Option (List Char × List Char)
  | [] => Option.none
  | '"' :: rest => some ([], rest)
  | '\\' :: e :: rest =>
    match parseJsonString rest with
    | some (s, r) =>
      (match e with
       | '"' => some ('"' :: s, r)
       | '\\' => some ('\\' :: s, r)
       | '/' => some ('/' :: s, r)
       | 'n' => some ('\n' :: s, r)
       | 't' => some ('\t' :: s, r)
       | 'r' => some ('\r' :: s, r)
       | _ => Option.none)
    | Option.none => Option.none
  | c :: rest =>
    match parseJsonString rest with
    | some (s, r) => some (c :: s, r)
    | Option.none => Option.none

/-- Decimal digits to a natural number. -/
def digitsToNat (ds : List Char) : Nat :=
  ds.foldl (fun n c => 10 * n + (c.toNat - 48)) 0

/-- Parse a JSON number (integer, or decimal fraction as an exact rational;
exponents are not modelled — no input of this pipeline's claims uses them). -/
def parseJsonNumber (cs : List Char) : Option (PyValue × List Char) :=
  let sgn := match cs with
    | '-' :: t => (true, t)
    | _ => (false, cs)
  let neg := sgn.1
  let cs1 := sgn.2
  let ds := cs1.takeWhile isJsonDigit
  let rest := cs1.dropWhile isJsonDigit
  if ds.isEmpty then Option.none
  else
    match rest with
    | '.' :: t =>
      let fs := t.takeWhile isJsonDigit
      let rest2 := t.dropWhile isJsonDigit
      if fs.isEmpty then Option.none
      else
        let q : ℚ := (digitsToNat ds : ℚ) + (digitsToNat fs : ℚ) / ((10 : ℚ) ^ fs.length)
        some (.float (if neg then -q else q), rest2)
    | _ => some (.int (if neg then -(digitsToNat ds : Int) else (digitsToNat ds : Int)), rest)

/-- Insert a member into a Python dict under construction: re-assigning an
existing key keeps its position (CPython dict semantics), a new key is
appended. -/
def pyDictInsert (kvs : List (String × PyValue)) (k : String) (v : PyValue) :
    List (String × PyValue) :=
  if (kvs.map Prod.fst).contains k then
    kvs.map (fun kv => if kv.1 = k then (k, v) else kv)
  else kvs ++ [(k, v)]

mutual

/-- Fuel-indexed recursive-descent parser modelling `json.loads` on the JSON
fragment this pipeline manipulates (objects, arrays, strings, numbers,
literals).  `none` means a parse error (or fuel exhaustion, which the fuel
chosen in `json_loads` prevents on well-formed input). -/
def parseJsonValue : Nat → List Char → Option (PyValue × List Char)
  | 0, _ => Option.none
  | fuel+1, cs =>
    match skipWs cs with
    | '{' :: rest =>
      (match skipWs rest with
       | '}' :: r2 => some (.dict [], r2)
       | _ => parseJsonMembers fuel rest [])
    | '[' :: rest =>
      (match skipWs rest with
       | ']' :: r2 => some (.list [], r2)
       | _ => parseJsonElems fuel rest [])
    | '"' :: rest =>
      (match parseJsonString rest with
       | some (s, r) => some (.str (String.mk s), r)
       | Option.none => Option.none)
    | 't' :: 'r' :: 'u' :: 'e' :: r => some (.bool true, r)
    | 'f' :: 'a' :: 'l' :: 's' :: 'e' :: r => some (.bool false, r)
    | 'n' :: 'u' :: 'l' :: 'l' :: r => some (.none, r)
    | cs2 => parseJsonNumber cs2

/-- Parse the members of a JSON object (after `{`, not at `}`). -/
def parseJsonMembers : Nat → List Char → List (String × PyValue) →
    Option (PyValue × List Char)
  | 0, _, _ => Option.none
  | fuel+1, cs, acc =>
    match skipWs cs with
    | '"' :: rest =>
      (match parseJsonString rest with
       | some (k, r1) =>
         (match skipWs r1 with
          | ':' :: r2 =>
            (match parseJsonValue fuel r2 with
             | some (v, r3) =>
               (match skipWs r3 with
                | ',' :: r4 => parseJsonMembers fuel r4 (pyDictInsert acc (String.mk k) v)
                | '}' :: r4 => some (.dict (pyDictInsert acc (String.mk k) v), r4)
                | _ => Option.none)
             | Option.none => Option.none)
          | _ => Option.none)
       | Option.none => Option.none)
    | _ => Option.none

/-- Parse the elements of a JSON array (after `[`, not at `]`). -/
def parseJsonElems : Nat → List Char → List PyValue → Option (PyValue × List Char)
  | 0, _, _ => Option.none
  | fuel+1, cs, acc =>
    match parseJsonValue fuel cs with
    | some (v, r) =>
      (match skipWs r with
       | ',' :: r2 => parseJsonElems fuel r2 (acc ++ [v])
       | ']' :: r2 => some (.list (acc ++ [v]), r2)
       | _ => Option.none)
    | Option.none => Option.none

end

/-- `json.loads`: parse one JSON value and require only whitespace after it.
Parse failures are `json.JSONDecodeError`, a different exception class from
the `ValueError("No JSON object found...")` the recovery wrapper raises
(`JSONDecodeError` subclasses `ValueError`, but carries the decode message,
not the no-JSON-found message). -/
def json_loads (cs : List Char) : Except PyErr PyValue :=
  match parseJsonValue (cs.length + 1) cs with
  | some (v, rest) =>
    if (skipWs rest).isEmpty then .ok v else .error (.jsonDecodeError "Extra data")
  | Option.none => .error (.jsonDecodeError "Expecting value")

/-- Python `text.find(c)` for a single character: index of first occurrence,
`none` standing for `-1`. -/
def strFind (cs : List Char) (c : Char) : Option Nat :=
  cs.findIdx? (· = c)

/-- Python `text.rfind(c)` for a single character: index of last occurrence,
`none` standing for `-1`. -/
def strRfind : List Char → Char → Option Nat
  | [], _ => Option.none
  | a :: rest, c =>
    match strRfind rest c with
    | some i => some (i + 1)
    | Option.none => if a = c then some 0 else Option.none

/-- `_json_loads_safely` (`src/agents/ingestion/main.py` lines 70-95 and the
identical `src/agents/risk_analysis/main.py` lines 26-40): strip; if the
stripped text starts with `{` and ends with `}` parse it whole; otherwise
parse the inclusive substring between the first `{` and the last `}` when
the latter comes strictly after the former; otherwise raise
`ValueError("No JSON object found in model output")`. -/
def _json_loads_safely (text : List Char) : Except PyErr PyValue :=
  let t := stripChars text
  if t.head? = some '{' ∧ t.getLast? = some '}' then json_loads t
  else
    match strFind t '{', strRfind t '}' with
    | some s, some e =>
      if e > s then json_loads ((t.drop s).take (e + 1 - s))
      else .error (.valueError "No JSON object found in model output")
    | some _, Option.none => .error (.valueError "No JSON object found in model output")
    | Option.none, _ => .error (.valueError "No JSON object found in model output")

/-- A first `{` strictly before a last `}` exists: the condition under which
the recovery parser finds a candidate JSON block. -/
def hasBracketPair (t : List Char) : Prop :=
  ∃ s e, strFind t '{' = some s ∧ strRfind t '}' = some e ∧ s < e


/-- Escape a character list for a JSON string literal (the common escapes;
other control characters pass through unchanged, none are produced by this
pipeline's inputs). -/
def escapeJsonChars : List Char → List Char
  | [] => []
  | c :: rest =>
    match c with
    | '"' => '\\' :: '"' :: escapeJsonChars rest
    | '\\' => '\\' :: '\\' :: escapeJsonChars rest
    | '\n' => '\\' :: 'n' :: escapeJsonChars rest
    | '\t' => '\\' :: 't' :: escapeJsonChars rest
    | '\r' => '\\' :: 'r' :: escapeJsonChars rest
    | c => c :: escapeJsonChars rest

/-- Left-pad a numeral string with zeros to width `k`. -/
def padZeros (s : String) (k : Nat) : String :=
  String.mk (List.replicate (k - s.length) '0') ++ s

/-- Python `repr` of a float, modelled on the rational embedding: exact for
terminating decimal expansions (every float literal this pipeline's claims
exercise), a fallback fraction rendering otherwise. -/
def pyFloatRepr (q : ℚ) : String :=
  let sign := if q.num < 0 then "-" else ""
  let n := q.num.natAbs
  match (List.range 29).find? (fun k => q.den ∣ 10 ^ k) with
  | some k =>
    let scaled := n * 10 ^ k / q.den
    if k = 0 then sign ++ toString scaled ++ ".0"
    else
      sign ++ toString (scaled / 10 ^ k) ++ "." ++ padZeros (toString (scaled % 10 ^ k)) k
  | Option.none => sign ++ toString n ++ "/" ++ toString q.den

mutual

/-- `json.dumps(value, ensure_ascii=False, separators=(",", ":"))`: compact
JSON serialization with insertion-ordered dict keys. -/
def jsonDumps : PyValue → String
  | .none => "null"
  | .bool true => "true"
  | .bool false => "false"
  | .int n => toString n
  | .float q => pyFloatRepr q
  | .str s => "\"" ++ String.mk (escapeJsonChars s.toList) ++ "\""
  | .list xs => "[" ++ jsonDumpsList xs ++ "]"
  | .dict kvs => "\x7b" ++ jsonDumpsKVs kvs ++ "\x7d"

/-- Comma-joined serialization of list elements. -/
def jsonDumpsList : List PyValue → String
  | [] => ""
  | [x] => jsonDumps x
  | x :: rest => jsonDumps x ++ "," ++ jsonDumpsList rest

/-- Comma-joined serialization of dict members with `:` separators. -/
def jsonDumpsKVs : List (String × PyValue) → String
  | [] => ""
  | [(k, v)] => "\"" ++ String.mk (escapeJsonChars k.toList) ++ "\":" ++ jsonDumps v
  | (k, v) :: rest =>
    "\"" ++ String.mk (escapeJsonChars k.toList) ++ "\":" ++ jsonDumps v ++ "," ++
      jsonDumpsKVs rest

end

/-- Escape a character list for Python string `repr` (backslash and single
quote). -/
def escapePyChars : List Char → List Char
  | [] => []
  | c :: rest =>
    if c = '\\' ∨ c = Char.ofNat 39 then '\\' :: c :: escapePyChars rest
    else c :: escapePyChars rest

mutual

/-- Python `repr` of an embedded value.  Strings are rendered single-quoted
(Python switches to double quotes when the text contains a single quote but
no double quote — a corner this pipeline's inputs never hit). -/
def pyRepr : PyValue → String
  | .none => "None"
  | .bool true => "True"
  | .bool false => "False"
  | .int n => toString n
  | .float q => pyFloatRepr q
  | .str s => pySQuote ++ String.mk (escapePyChars s.toList) ++ pySQuote
  | .list xs => "[" ++ pyReprElems xs ++ "]"
  | .dict kvs => "\x7b" ++ pyReprKVs kvs ++ "\x7d"

/-- Comma-joined `repr` of list elements. -/
def pyReprElems : List PyValue → String
  | [] => ""
  | [x] => pyRepr x
  | x :: rest => pyRepr x ++ ", " ++ pyReprElems rest

/-- Comma-joined `repr` of dict members. -/
def pyReprKVs : List (String × PyValue) → String
  | [] => ""
  | [(k, v)] => pyRepr (.str k) ++ ": " ++ pyRepr v
  | (k, v) :: rest => pyRepr (.str k) ++ ": " ++ pyRepr v ++ ", " ++ pyReprKVs rest

end

/-- Python `str(value)`: identity on strings, `repr` on containers, the
usual renderings on scalars. -/
def pyStr : PyValue → String
  | .str s => s
  | v => pyRepr v

/-- The list branch of `_coerce_value_to_string_or_none`
(`src/agents/ingestion/main.py` lines 320-334): skip `None` items, append
non-blank stripped strings, JSON-serialize dicts, stringify other items. -/
def coerceListParts : List PyValue → List String
  | [] => []
  | item :: rest =>
    match item with
    | .none => coerceListParts rest
    | .str s =>
      let t := pyStrip s
      if t = "" then coerceListParts rest else t :: coerceListParts rest
    | .dict kvs => jsonDumps (.dict kvs) :: coerceListParts rest
    | other => pyStr other :: coerceListParts rest

/-- `_coerce_value_to_string_or_none` (`src/agents/ingestion/main.py` lines
309-337): normalize one raw extracted value to a string or `None`. -/
def _coerce_value_to_string_or_none (fieldName : String) (value : PyValue) : PyValue :=
  match value with
  | .none => .none
  | .str s =>
    let v := pyStrip s
    if v = "" then .none else .str v
  | .dict kvs => .str (jsonDumps (.dict kvs))
  | .list items =>
    let joined := pyStrip (String.intercalate "\n" (coerceListParts items))
    if joined = "" then .none else .str joined
  | other =>
    let s := pyStrip (pyStr other)
    if s = "" then .none else .str s

/-- `_coerce_extraction_types` (`src/agents/ingestion/main.py` lines
276-288): build a fresh dict over exactly the 7 expected fields, coercing
`obj.get(k)` for each; keys of `obj` outside the 7 fields do not appear in
the result. -/
def _coerce_extraction_types (obj : List (String × PyValue)) : List (String × PyValue) :=
  FIELDS.map (fun k => (k, _coerce_value_to_string_or_none k (pyGet obj k)))

/-- A raw extraction mapping carrying an unexpected top-level key, for the
C1 counterexample. -/
def coerceExtraKeyInput : List (String × PyValue) :=
  [("governing_law", .str "NY"), ("extra_field", .str "x")]


/-- Window-relative index of the last occurrence of `". "` fully inside the
window: Python `text.rfind(". ", i, j)` with `i` subtracted (`none` is
`-1`). -/
def rfindDotSpace : List Char → Option Nat
  | c1 :: c2 :: rest =>
    (match rfindDotSpace (c2 :: rest) with
     | some k => some (k + 1)
     | Option.none => if c1 = '.' ∧ c2 = ' ' then some 0 else Option.none)
  | _ => Option.none

/-- Helper for `splitWs`: `acc` is the current word, reversed. -/
def splitWsAux : List Char → List Char → List (List Char)
  | [], acc => if acc.isEmpty then [] else [acc.reverse]
  | c :: cs, acc =>
    if pyIsSpace c then
      if acc.isEmpty then splitWsAux cs [] else acc.reverse :: splitWsAux cs []
    else splitWsAux cs (c :: acc)

/-- Python `str.split()`: the maximal whitespace-free runs of the text. -/
def splitWs (t : List Char) : List (List Char) :=
  splitWsAux t []

/-- `" ".join(text.split())`: collapse every whitespace run to a single
space and trim the ends. -/
def normalizeWs (t : List Char) : List Char :=
  List.intercalate [' '] (splitWs t)

/-- The cut-point selection of one `_chunk_text` loop iteration, in
window-relative coordinates over `rest = text[i:]`: prefer the last `". "`
in the window `text[i:j]` when it lies past 60% of the window, else the last
space, else the window edge `j`.  `6 * m / 10` models `int(max_chars * 0.6)`
in exact arithmetic (the source computes it in floating point, which can
differ by one for some `max_chars`; the join/length properties proved below
hold for any threshold, so this does not affect any claim). -/
def chunkCandidate (m : Nat) (w : List Char) : Option Nat :=
  match rfindDotSpace w with
  | some c => if c ≤ 6 * m / 10 then strRfind w ' ' else some c
  | Option.none => strRfind w ' '

/-- The final cut point of one loop iteration: the boundary candidate when
it is a positive in-window index, else the window edge (Python
`if cut == -1 or cut <= i: cut = j`). -/
def chunkCut (m : Nat) (rest : List Char) : Nat :=
  let j := min m rest.length
  match chunkCandidate m (rest.take j) with
  | some c => if c = 0 then j else c
  | Option.none => j

/-- The chunking loop of `_chunk_text` (`src/agents/ingestion/main.py` lines
137-149), producing the raw (unstripped) pieces `text[i:cut]`; the loop in
the source strips each piece as it appends it and filters empty results at
the end, which `_chunk_text` below applies on top.  Fuel-indexed; fuel
`text.length` suffices because every iteration advances by at least one
character when `max_chars ≥ 1`. -/
def chunkLoopF (m : Nat) : Nat → List Char → List (List Char)
  | 0, _ => []
  | _, [] => []
  | fuel+1, c :: cs =>
    (c :: cs).take (chunkCut m (c :: cs)) ::
      chunkLoopF m fuel ((c :: cs).drop (chunkCut m (c :: cs)))

/-- `_chunk_text` (`src/agents/ingestion/main.py` lines 125-153): normalize
whitespace; a short text is a single chunk; otherwise cut on boundaries,
strip each piece, and drop empty pieces. -/
def _chunk_text (t : List Char) (maxChars : Nat) : List (List Char) :=
  let text := normalizeWs t
  if text.length ≤ maxChars then [text]
  else ((chunkLoopF maxChars text.length text).map stripChars).filter (fun c => ¬ c.isEmpty)


/-- The fields of a `get_document_text_detection` response the wait loop
reads: `resp.get("JobStatus")` and `resp.get("StatusMessage")`. -/
structure TextractResp where
  jobStatus : Option String
  statusMessage : Option String
deriving DecidableEq

/-- How one `_wait_for_textract` iteration ends. -/
inductive WaitResult where
  | completed (status : String)
  | jobFailed (resp : TextractResp)
  | timedOut (elapsed : ℚ) (lastResp : TextractResp)
deriving DecidableEq

/-- The fixed sleep between polls: `time.sleep(2)` in
`src/agents/ingestion/main.py` line 410. -/
def TEXTRACT_SLEEP_SECONDS : ℚ := 2

/-- Default of the `TEXTRACT_WAIT_TIMEOUT` env var (300 seconds). -/
def TEXTRACT_WAIT_TIMEOUT_default : ℚ := 300

/-- The decision one poll iteration makes from the observed response and the
elapsed wall-clock time at the post-poll timeout check (`src/agents/
ingestion/main.py` lines 383-408): return on `SUCCEEDED`/`PARTIAL_SUCCESS`,
raise on `FAILED` (carrying the response), raise on a strict timeout
overrun, else keep polling (`none`). -/
def pollOutcome (resp : TextractResp) (el : ℚ) (timeout : ℚ) : Option WaitResult :=
  if resp.jobStatus = some "SUCCEEDED" then some (.completed "SUCCEEDED")
  else if resp.jobStatus = some "PARTIAL_SUCCESS" then some (.completed "PARTIAL_SUCCESS")
  else if resp.jobStatus = some "FAILED" then some (.jobFailed resp)
  else if el > timeout then some (.timedOut el resp)
  else Option.none

/-- The `while True` poll loop of `_wait_for_textract`, fuel-indexed (`none`
models running past the fuel bound; any fuel beyond the deciding poll gives
the same result).  `poll k` is the response of poll number `k` (0-based) and
`elapsed k` the value of `time.time() - start` at iteration `k`'s timeout
check.  The second component of the result counts the `time.sleep(2)` calls
executed, one per continued iteration. -/
def waitPollLoop (poll : Nat → TextractResp) (elapsed : Nat → ℚ) (timeout : ℚ) :
    Nat → Nat → Option (WaitResult × Nat)
  | 0, _ => Option.none
  | fuel+1, k =>
    match pollOutcome (poll k) (elapsed k) timeout with
    | some r => some (r, 0)
    | Option.none =>
      match waitPollLoop poll elapsed timeout fuel (k + 1) with
      | some (r, n) => some (r, n + 1)
      | Option.none => Option.none

/-- `_wait_for_textract` (`src/agents/ingestion/main.py` lines 366-410):
poll from iteration 0 with the configured timeout
(`TEXTRACT_WAIT_TIMEOUT`, default 300 s, when called without an explicit
timeout). -/
def _wait_for_textract (poll : Nat → TextractResp) (elapsed : Nat → ℚ)
    (timeoutSeconds : Option ℚ) (fuel : Nat) : Option (WaitResult × Nat) :=
  waitPollLoop poll elapsed (timeoutSeconds.getD TEXTRACT_WAIT_TIMEOUT_default) fuel 0

/-- Rendering of the modelled response fields, used when a failure must
embed the response itself (the real code interpolates the boto3 response
dict; only the two fields the loop reads are modelled). -/
def textractRespRepr (resp : TextractResp) : String :=
  pyRepr (.dict
    ((match resp.jobStatus with
      | some s => [("JobStatus", PyValue.str s)]
      | Option.none => []) ++
     (match resp.statusMessage with
      | some m => [("StatusMessage", PyValue.str m)]
      | Option.none => [])))

/-- `resp.get("StatusMessage") or resp`: the failure info interpolated into
the `FAILED` error message (an untruthy message falls back to the whole
response). -/
def textractFailureInfo (resp : TextractResp) : String :=
  match resp.statusMessage with
  | some m => if m ≠ "" then m else textractRespRepr resp
  | Option.none => textractRespRepr resp


mutual

/-- Structural boolean equality on embedded values (used by Python `==` on
non-numeric operands; Python dict equality is key-set based, approximated
here by insertion-order comparison — no reachable comparison in this
development compares dicts). -/
def pyStructEq : PyValue → PyValue → Bool
  | .none, .none => true
  | .bool a, .bool b => a = b
  | .int a, .int b => a = b
  | .float a, .float b => a = b
  | .str a, .str b => a = b
  | .list a, .list b => pyStructEqList a b
  | .dict a, .dict b => pyStructEqKVs a b
  | _, _ => false

/-- Elementwise equality of embedded lists. -/
def pyStructEqList : List PyValue → List PyValue → Bool
  | [], [] => true
  | a :: as2, b :: bs => if pyStructEq a b then pyStructEqList as2 bs else false
  | _, _ => false

/-- Entrywise equality of embedded dicts. -/
def pyStructEqKVs : List (String × PyValue) → List (String × PyValue) → Bool
  | [], [] => true
  | (ka, va) :: as2, (kb, vb) :: bs =>
    if ka = kb then (if pyStructEq va vb then pyStructEqKVs as2 bs else false) else false
  | _, _ => false

end

/-- Python `==`: numeric operands compare by value across `bool`/`int`/
`float`; everything else structurally. -/
def pyEqB (a b : PyValue) : Bool :=
  match pyNumVal a, pyNumVal b with
  | some x, some y => x = y
  | _, _ => pyStructEq a b

/-- Whether `needle` is a prefix of `hay`. -/
def listHasPrefix : List Char → List Char → Bool
  | [], _ => true
  | _ :: _, [] => false
  | n :: ns, h :: hs => if n = h then listHasPrefix ns hs else false

/-- Whether `needle` occurs as a contiguous substring of `hay`
(Python `needle in hay` on strings). -/
def listContainsSub (needle : List Char) : List Char → Bool
  | [] => needle.isEmpty
  | c :: rest => if listHasPrefix needle (c :: rest) then true else listContainsSub needle rest

/-- Python attribute-error message `'T' object has no attribute 'a'`. -/
def noAttrMsg (tname attr : String) : String :=
  pySQuote ++ tname ++ pySQuote ++ " object has no attribute " ++ pySQuote ++ attr ++ pySQuote

/-- Python `needle in container`: key membership on dicts, element equality
on lists, substring on strings; `TypeError` elsewhere. -/
def pyIn (needle container : PyValue) : Except PyErr Bool :=
  match container with
  | .dict kvs =>
    match needle with
    | .str s => .ok ((kvs.map Prod.fst).contains s)
    | _ => .ok false
  | .list xs => .ok (xs.any (fun x => pyEqB x needle))
  | .str h =>
    match needle with
    | .str n => .ok (listContainsSub n.toList h.toList)
    | _ => .error (.typeError "in <string> requires string as left operand")
  | _ => .error (.typeError "argument is not iterable")

/-- Hex digit value for percent-decoding. -/
def hexDigitVal (c : Char) : Option Nat :=
  if '0' ≤ c ∧ c ≤ '9' then some (c.toNat - 48)
  else if 'a' ≤ c ∧ c ≤ 'f' then some (c.toNat - 87)
  else if 'A' ≤ c ∧ c ≤ 'F' then some (c.toNat - 55)
  else Option.none

/-- `urllib.parse.unquote_plus` on a character list: `+` becomes a space and
`%XX` percent-escapes are decoded (bytewise; multi-byte UTF-8 sequences are
decoded per byte — the S3 keys this pipeline sees are ASCII).  Invalid
escapes pass through unchanged, as in Python. -/
def unquotePlusChars : List Char → List Char
  | [] => []
  | '+' :: rest => ' ' :: unquotePlusChars rest
  | '%' :: a :: b :: rest =>
    match hexDigitVal a, hexDigitVal b with
    | some x, some y => Char.ofNat (16 * x + y) :: unquotePlusChars rest
    | _, _ => '%' :: unquotePlusChars (a :: b :: rest)
  | c :: rest => c :: unquotePlusChars rest

/-- `urllib.parse.unquote_plus` on strings. -/
def unquote_plus (s : String) : String :=
  String.mk (unquotePlusChars s.toList)

/-- Python subscripting `container[i]` for an integer index on lists. -/
def pyIndexNat (v : PyValue) (i : Nat) : Except PyErr PyValue :=
  match v with
  | .list xs =>
    match xs.get? i with
    | some x => .ok x
    | Option.none => .error (.typeError "list index out of range")
  | _ => .error (.typeError "value is not subscriptable with an integer index")

/-- The `Records`-notification body of the ingestion handler
(`src/agents/ingestion/main.py` lines 450-459): `rec["s3"]["bucket"]["name"]`
and `unquote_plus(rec["s3"]["object"]["key"])`; its `except ... raise`
re-raises any failure unchanged. -/
def parseRecordsBody (rec0 : PyValue) : Except PyErr (PyValue × PyValue) :=
  match pyIndex rec0 "s3" with
  | .error e => .error e
  | .ok s3v =>
    match pyIndex s3v "bucket" with
    | .error e => .error e
    | .ok bv =>
      match pyIndex bv "name" with
      | .error e => .error e
      | .ok bucket =>
        match pyIndex s3v "object" with
        | .error e => .error e
        | .ok ov =>
          match pyIndex ov "key" with
          | .error e => .error e
          | .ok kv =>
            match kv with
            | .str ks => .ok (bucket, .str (unquote_plus ks))
            | _ => .error (.typeError "unquote_plus expects a string")

/-- `raise ValueError("Unsupported event format: ...")`. -/
def parseEventUnsupported : Except PyErr (PyValue × PyValue) :=
  .error (.valueError ("Unsupported event format: expected " ++ pySQuote ++ "s3" ++ pySQuote ++
    " or " ++ pySQuote ++ "Records" ++ pySQuote ++ " with S3 notification"))

/-- The nested `s3.bucket.name` shape and the final unsupported-format
error. -/
def parseEventNested (ed : List (String × PyValue)) : Except PyErr (PyValue × PyValue) :=
  match pyLookup ed "s3" with
  | some (.dict s3) =>
    (match pyLookup s3 "bucket" with
     | some (.dict bd) =>
       if (bd.map Prod.fst).contains "name" then
         let k1 := pyGet s3 "key"
         if pyTruthy k1 then .ok (pyGet bd "name", k1)
         else
           let ov := pyGet s3 "object"
           let ov2 := if pyTruthy ov then ov else .dict []
           (match ov2 with
            | .dict od => .ok (pyGet bd "name", pyGet od "key")
            | .str _ => .error (.attributeError (noAttrMsg "str" "get"))
            | _ => .error (.attributeError (noAttrMsg "object" "get")))
       else parseEventUnsupported
     | _ => parseEventUnsupported)
  | _ => parseEventUnsupported

/-- The `elif` chain after the direct-`s3` shape. -/
def parseEventRest (ed : List (String × PyValue)) : Except PyErr (PyValue × PyValue) :=
  match pyLookup ed "Records" with
  | some (.list (rec0 :: _)) =>
    (match pyIn (.str "s3") rec0 with
     | .error e => .error e
     | .ok true => parseRecordsBody rec0
     | .ok false => parseEventNested ed)
  | _ => parseEventNested ed

/-- The event-shape dispatch of the ingestion handler
(`src/agents/ingestion/main.py` lines 443-465), returning `(bucket, key)` or
raising: direct `s3.bucket/key` shape; else an S3 notification `Records`
list (whose condition `"s3" in event["Records"][0]` itself can raise a
`TypeError` for non-container records); else the nested
`s3.bucket.name` shape (where a truthy non-dict `s3.object` raises
`AttributeError`); else `ValueError` for an unsupported format. -/
def parseEventSource (ed : List (String × PyValue)) : Except PyErr (PyValue × PyValue) :=
  match pyLookup ed "s3", pyLookup ed "Records" with
  | some (.dict s3), _ =>
    if (s3.map Prod.fst).contains "bucket" ∧ (s3.map Prod.fst).contains "key" then
      .ok (pyGet s3 "bucket", pyGet s3 "key")
    else parseEventRest ed
  | _, _ => parseEventRest ed

/-- `_invoke_bedrock` for extraction (`src/agents/ingestion/main.py` lines
183-273) with the model call abstracted: `modelText` is the normalized text
of the model response for this chunk (or the client error the call raised).
The pipeline after the call: JSON recovery, type coercion, schema
validation.  (A non-dict parse result would raise `AttributeError` inside
`_coerce_extraction_types`; unreachable, since the recovery parser only
returns values parsed from a brace-delimited block.) -/
def _invoke_bedrock_extract (modelText : Except PyErr String) :
    Except PyErr (List (String × PyValue)) :=
  match modelText with
  | .error e => .error e
  | .ok txt =>
    match _json_loads_safely txt.toList with
    | .error e => .error e
    | .ok parsed =>
      match parsed with
      | .dict kvs =>
        let coerced := _coerce_extraction_types kvs
        (match _validate_schema_minimal (.dict coerced) with
         | .error e => .error e
         | .ok _ => .ok coerced)
      | _ => .error (.attributeError (noAttrMsg "object" "get"))

/-- The formatted entry appended to `bedrock_failures` for a failed chunk:
`f"chunk[{idx}]: {type(e).__name__}: {str(e)}"`. -/
def chunkErrorEntry (idx : Nat) (e : PyErr) : String :=
  "chunk[" ++ toString idx ++ "]: " ++ e.name ++ ": " ++ e.msg

/-- The per-chunk extraction loop of the ingestion handler
(`src/agents/ingestion/main.py` lines 485-491): successful extractions and
formatted failure entries, both in chunk order.  The chunk contents only
determine the prompts; the model response per chunk index is supplied by
`modelText`. -/
def extractionLoop (modelText : Nat → Except PyErr String) :
    Nat → List (List Char) → List (List (String × PyValue)) × List String
  | _, [] => ([], [])
  | idx, _ :: rest =>
    let r := extractionLoop modelText (idx + 1) rest
    match _invoke_bedrock_extract (modelText idx) with
    | .ok d => (d :: r.1, r.2)
    | .error e => (r.1, chunkErrorEntry idx e :: r.2)

/-- The error-result shape `{"status": "error", "reason": ...,
"contract_id": ...}` the ingestion handler returns on failure. -/
def errorResult (contractId : PyValue) (reason : String) : PyValue :=
  .dict [("status", .str "error"), ("reason", .str reason), ("contract_id", contractId)]

/-- The success response of the ingestion handler
(`src/agents/ingestion/main.py` lines 505-512). -/
def ingestSuccessResult (contractId bucket key : PyValue)
    (merged : List (String × PyValue)) (chunkCount : Nat) (failures : List String) : PyValue :=
  .dict [("contract_id", contractId),
         ("source", .dict [("bucket", bucket), ("key", key)]),
         ("extracted", .dict merged),
         ("chunk_count", .int chunkCount),
         ("bedrock_failures", .list (failures.map .str)),
         ("status", .str "INGESTED")]

/-- The chunking-and-extraction phase of the ingestion handler
(`src/agents/ingestion/main.py` lines 480-515): run the per-chunk loop,
fail with the all-extractions-failed error when nothing succeeded, else
merge, re-validate and build the success response. -/
def ingestExtractionPhase (contractId bucket key : PyValue)
    (modelText : Nat → Except PyErr String) (chunks : List (List Char)) : PyValue :=
  let r := extractionLoop modelText 0 chunks
  if r.1.isEmpty then
    errorResult contractId
      ("All Bedrock extractions failed. Errors: " ++ pyReprStrList (r.2.take 3))
  else
    let merged := _merge_extractions r.1
    match _validate_schema_minimal (.dict merged) with
    | .error e => errorResult contractId e.msg
    | .ok _ => ingestSuccessResult contractId bucket key merged chunks.length r.2

/-- `str(TimeoutError(...))` for the wait-loop timeout (the `:.1f` float
formatting of the source is rendered by the exact rational representation;
the snippet holds the modelled `JobStatus`/`StatusMessage` fields of the
last response). -/
def timeoutMessage (jobId : String) (el : ℚ) (resp : TextractResp) : String :=
  "Timed out waiting for Textract job " ++ jobId ++ " after " ++ pyFloatRepr el ++
    "s; last_resp=" ++ textractRespRepr resp

/-- The machine-external effects of one ingestion invocation: the fresh
UUID, the Textract job submission, the poll responses with the wall-clock
readings at the timeout checks, the retrieved document text, and the
normalized Bedrock model text per chunk index (or the error that call
raised). -/
structure IngestOracle where
  freshId : String
  startJob : Except PyErr String
  poll : Nat → TextractResp
  pollElapsed : Nat → ℚ
  getText : Except PyErr String
  modelText : Nat → Except PyErr String

/-- The ingestion `handler` (`src/agents/ingestion/main.py` lines 433-515).
`maxCharsPerChunk` and `timeoutSeconds` are the `MAX_CHARS_PER_CHUNK` and
`TEXTRACT_WAIT_TIMEOUT` configuration values; `fuel` bounds the poll loop
(`none` models an invocation still polling).  A `.error` result is an
exception propagating to the caller; `.ok` is the returned dict. -/
def ingestion_handler (maxCharsPerChunk : Nat) (timeoutSeconds : ℚ) (oracle : IngestOracle)
    (fuel : Nat) (event : PyValue) : Option (Except PyErr PyValue) :=
  match event with
  | .dict ed =>
    let contractId : PyValue :=
      if pyTruthy (pyGet ed "contract_id") then pyGet ed "contract_id" else .str oracle.freshId
    (match parseEventSource ed with
     | .error e => some (.error e)
     | .ok (bucket, key) =>
       match oracle.startJob with
       | .error e => some (.ok (errorResult contractId e.msg))
       | .ok jobId =>
         match waitPollLoop oracle.poll oracle.pollElapsed timeoutSeconds fuel 0 with
         | Option.none => Option.none
         | some (.jobFailed resp, _) =>
           some (.ok (errorResult contractId
             ("Textract job ended with status=FAILED: " ++ textractFailureInfo resp)))
         | some (.timedOut el resp, _) =>
           some (.ok (errorResult contractId (timeoutMessage jobId el resp)))
         | some (.completed _, _) =>
           match oracle.getText with
           | .error e => some (.ok (errorResult contractId e.msg))
           | .ok fullText =>
             if fullText = "" then
               some (.ok (errorResult contractId "Textract returned empty text"))
             else
               some (.ok (ingestExtractionPhase contractId bucket key oracle.modelText
                 (_chunk_text fullText.toList maxCharsPerChunk))))
  | _ => some (.error (.valueError "Event must be a dict"))

/-- Round half to even (Python `round` on an exact value). -/
def roundHalfEven (x : ℚ) : ℤ :=
  let f := ⌊x⌋
  let r := x - f
  if r < 1/2 then f
  else if r > 1/2 then f + 1
  else if Even f then f else f + 1

/-- Python `round(x, 2)` on the exact rational embedding (exact for every
value the local heuristic produces). -/
def pyRound2 (x : ℚ) : ℚ :=
  (roundHalfEven (x * 100) : ℚ) / 100

/-- Python `str(bool(v))`. -/
def pyBoolStr (b : Bool) : String :=
  if b then "True" else "False"

/-- `_extract_structured_contract` (`src/agents/risk_analysis/main.py` lines
173-250): pass a provided `structured_contract` dict through; wrap
ingestion-style `extracted` data into the structured shape; otherwise fall
through returning `None` (the sample fallback is commented out in the
source).  A non-dict event raises `AttributeError` at the first
`event.get`. -/
def _extract_structured_contract (freshId : String) (event : PyValue) : Except PyErr PyValue :=
  match event with
  | .dict ed =>
    (match pyLookup ed "structured_contract" with
     | some (.dict sc) => .ok (.dict sc)
     | _ =>
       match pyLookup ed "extracted" with
       | some (.dict ex) =>
         let contractId :=
           if pyTruthy (pyGet ed "contract_id") then pyGet ed "contract_id" else .str freshId
         let source0 := pyGet ed "s3"
         let source := if pyTruthy source0 then source0 else .dict []
         let sourceObj :=
           match source with
           | .dict sd =>
             if (sd.map Prod.fst).contains "bucket" ∧ (sd.map Prod.fst).contains "key" then
               PyValue.dict [("bucket", pyGet sd "bucket"), ("key", pyGet sd "key")]
             else PyValue.dict [("bucket", .none), ("key", .none)]
           | _ => PyValue.dict [("bucket", .none), ("key", .none)]
         let chunkCount :=
           if pyTruthy (pyGet ed "chunk_count") then pyGet ed "chunk_count"
           else
             match pyLookup ed "chunk_count" with
             | some v => v
             | Option.none => .int 0
         .ok (.dict [("contract_id", contractId), ("source", sourceObj),
           ("extracted", .dict ex), ("chunk_count", chunkCount),
           ("bedrock_failures", (pyLookup ed "bedrock_failures").getD (.list [])),
           ("status", (pyLookup ed "status").getD (.str "INGESTED"))])
       | _ => .ok PyValue.none)
  | _ => .error (.attributeError (noAttrMsg "object" "get"))

/-- `contract_id = event.get("contract_id") or structured_contract.get(
"contract_id")` (`src/agents/risk_analysis/main.py` line 272), evaluated
outside the handler try-block: when the event value is falsy and the
structured contract is `None`, the `.get` raises a bare `AttributeError`. -/
def riskContractId (event structured : PyValue) : Except PyErr PyValue :=
  match event with
  | .dict ed =>
    if pyTruthy (pyGet ed "contract_id") then .ok (pyGet ed "contract_id")
    else
      (match structured with
       | .dict sd => .ok (pyGet sd "contract_id")
       | .none => .error (.attributeError (noAttrMsg "NoneType" "get"))
       | _ => .error (.attributeError (noAttrMsg "object" "get")))
  | _ => .error (.attributeError (noAttrMsg "object" "get"))

/-- `_invoke_bedrock` for risk analysis (`src/agents/risk_analysis/main.py`
lines 92-160) with the model call abstracted to the normalized response
text: JSON recovery then risk-schema validation. -/
def _invoke_bedrock_risk (modelText : Except PyErr String) : Except PyErr PyValue :=
  match modelText with
  | .error e => .error e
  | .ok txt =>
    match _json_loads_safely txt.toList with
    | .error e => .error e
    | .ok result =>
      match _validate_risk_output result with
      | .error e => .error e
      | .ok _ => .ok result

/-- The local deterministic heuristic of the risk handler
(`src/agents/risk_analysis/main.py` lines 282-305), used when `RUN_BEDROCK`
is false: presence-based scores 6.0/3.0 and their rounded mean. -/
def riskHeuristic (structured : PyValue) : Except PyErr PyValue :=
  match structured with
  | .dict sd =>
    let ext1 :=
      match pyLookup sd "extracted" with
      | some v => v
      | Option.none => .dict []
    let ext := if pyTruthy ext1 then ext1 else .dict []
    (match ext with
     | .dict exd =>
       let ps := fun (key : String) => if pyTruthy (pyGet exd key) then (6 : ℚ) else 3
       let liability := ps "liability_clause"
       let termination := ps "termination_clause"
       let financial := ps "payment_terms"
       let overall := pyRound2 ((liability + termination + financial) / 3)
       let rationale :=
         "Heuristic: liability_clause present=" ++
           pyBoolStr (pyTruthy (pyGet exd "liability_clause")) ++
         ", termination_clause present=" ++
           pyBoolStr (pyTruthy (pyGet exd "termination_clause")) ++
         ", payment_terms present=" ++
           pyBoolStr (pyTruthy (pyGet exd "payment_terms")) ++ "."
       .ok (.dict [("overall_risk", .float overall), ("liability_risk", .float liability),
         ("termination_risk", .float termination), ("financial_risk", .float financial),
         ("rationale", .str rationale)])
     | .none => .error (.attributeError (noAttrMsg "NoneType" "get"))
     | _ => .error (.attributeError (noAttrMsg "object" "get")))
  | .none => .error (.attributeError (noAttrMsg "NoneType" "get"))
  | _ => .error (.attributeError (noAttrMsg "object" "get"))

/-- The model-or-heuristic dispatch inside the risk handler try-block
(`src/agents/risk_analysis/main.py` lines 277-305): with `RUN_BEDROCK` set,
build the prompt from `structured.keys()` (raising `AttributeError` on a
non-dict) and invoke the model; otherwise run the local heuristic. -/
def riskInvokeModel (runBedrock : Bool) (structured : PyValue)
    (modelText : Except PyErr String) : Except PyErr PyValue :=
  if runBedrock then
    match structured with
    | .dict _ => _invoke_bedrock_risk modelText
    | .none => .error (.attributeError (noAttrMsg "NoneType" "keys"))
    | _ => .error (.attributeError (noAttrMsg "object" "keys"))
  else riskHeuristic structured

/-- The remainder of the risk handler try-block after the model/heuristic
call (`src/agents/risk_analysis/main.py` lines 307-316): re-validate, decide
the flag, and build the `RISK_ANALYZED` response. -/
def riskTryBody (contractId : PyValue) (threshold : ℚ)
    (invoked : Except PyErr PyValue) : Except PyErr PyValue :=
  match invoked with
  | .error e => .error e
  | .ok risk =>
    match _validate_risk_output risk with
    | .error e => .error e
    | .ok _ =>
      match _high_risk_flag threshold risk with
      | .error e => .error e
      | .ok flag =>
        .ok (.dict [("contract_id", contractId), ("risk", risk),
          ("risk_flag", .str (if flag then "HIGH_RISK" else "OK")),
          ("status", .str "RISK_ANALYZED")])

/-- The risk-analysis `handler` (`src/agents/risk_analysis/main.py` lines
253-323).  `runBedrock` is the `RUN_BEDROCK` flag (default true),
`threshold` the configured `HIGH_RISK_THRESHOLD`, `modelText` the
normalized model response.  Failures before the try-block propagate as
`.error`; failures inside it are caught and shaped into the `ERROR`
result. -/
def risk_handler (runBedrock : Bool) (threshold : ℚ) (freshId : String)
    (modelText : Except PyErr String) (event : PyValue) : Except PyErr PyValue :=
  match _extract_structured_contract freshId event with
  | .error e => .error e
  | .ok structured =>
    match riskContractId event structured with
    | .error e => .error e
    | .ok contractId =>
      match riskTryBody contractId threshold
          (riskInvokeModel runBedrock structured modelText) with
      | .ok r => .ok r
      | .error e =>
        .ok (.dict [("contract_id", contractId), ("status", .str "ERROR"),
          ("error", .str e.msg)])

/-- A concrete oracle for witnesses and counterexamples. -/
def trivialIngestOracle : IngestOracle :=
  ⟨"id-0", .ok "job-1", fun _ => ⟨some "SUCCEEDED", Option.none⟩, fun _ => 0,
   .ok "hello world", fun _ => .error (.clientError "model unavailable")⟩

/-- A model response that passes extraction validation: all 7 fields null. -/
def validExtractionJson : String :=
  "\x7b\"governing_law\":null,\"termination_clause\":null,\"liability_clause\":null," ++
  "\"indemnity_clause\":null,\"data_protection\":null,\"payment_terms\":null," ++
  "\"renewal_terms\":null\x7d"

/-- The C4 witness oracle: chunk 1 fails (no JSON in the response), chunks
0 and 2 succeed. -/
def c4ModelText : Nat → Except PyErr String :=
  fun i => if i = 1 then .ok "no json here" else .ok validExtractionJson

/-- The result shape the spec requires of a normally returned ingestion
result: a dict carrying `contract_id` and a `status` that is either the
success value `INGESTED` or the error value `error` accompanied by a
`reason` string. -/
def ingestShape (r : PyValue) : Prop :=
  ∃ kvs, r = PyValue.dict kvs ∧ (pyLookup kvs "contract_id").isSome = true ∧
    (pyLookup kvs "status" = some (.str "INGESTED") ∨
     (pyLookup kvs "status" = some (.str "error") ∧
      ∃ s, pyLookup kvs "reason" = some (.str s)))

/-- The result shape the spec requires of a normally returned risk-analysis
result: a dict carrying `contract_id` and a `status` that is either
`RISK_ANALYZED` or `ERROR` accompanied by an `error` string. -/
def riskShape (r : PyValue) : Prop :=
  ∃ kvs, r = PyValue.dict kvs ∧ (pyLookup kvs "contract_id").isSome = true ∧
    (pyLookup kvs "status" = some (.str "RISK_ANALYZED") ∨
     (pyLookup kvs "status" = some (.str "ERROR") ∧
      ∃ s, pyLookup kvs "error" = some (.str s)))

/-- A direct-`s3` ingestion event used to exercise a normally returned
result. -/
def c5IngestEvent : PyValue :=
  .dict [("s3", .dict [("bucket", .str "b"), ("key", .str "k")])]

/-- An oracle whose Textract job submission fails, driving the ingestion
handler into its caught-error result. -/
def c5IngestOracle : IngestOracle :=
  ⟨"id-0", .error (.clientError "textract down"), fun _ => ⟨Option.none, Option.none⟩,
   fun _ => 0, .ok "", fun _ => .error (.clientError "x")⟩

/-- The value the ingestion handler returns normally on `c5IngestEvent`
under `c5IngestOracle`. -/
def c5IngestResult : PyValue :=
  match ingestion_handler 1000 300 c5IngestOracle 1 c5IngestEvent with
  | some (.ok r) => r
  | _ => .none

/-- A risk-analysis event carrying a structured contract; with the model
call failing, the handler catches and shapes the error. -/
def c5RiskEvent : PyValue :=
  .dict [("structured_contract", .dict []), ("contract_id", .str "c-9")]

/-- The value the risk handler returns normally on `c5RiskEvent`. -/
def c5RiskResult : PyValue :=
  match risk_handler true 7 "fresh" (.error (.clientError "model down")) c5RiskEvent with
  | .ok r => r
  | _ => .none

/-! ## Theorems -/

/-- C2: with configured threshold `t`, `_high_risk_flag` returns `HIGH_RISK`
(true) iff at least one of the four scores `overall_risk`, `liability_risk`,
`termination_risk`, `financial_risk` is strictly greater than `t`; the
default threshold is 7; at `t = 7` a record with all scores exactly 7 yields
`OK` (false) and `liability_risk = 7.01` alone yields `HIGH_RISK` (true). -/
theorem risk_flag_iff_any_score_exceeds :
    (∀ (t o l te f : ℚ) (r : String),
      _high_risk_flag t (mkRiskRecord o l te f r) =
        .ok (decide (o > t ∨ l > t ∨ te > t ∨ f > t)))
  ∧ HIGH_RISK_THRESHOLD_default = 7
  ∧ _high_risk_flag 7 (mkRiskRecord 7 7 7 7 "all scores exactly seven") = .ok false
  ∧ _high_risk_flag 7 (mkRiskRecord 3 (701/100) 2 1 "liability slightly above") = .ok true := by
  have hgen : ∀ (t o l te f : ℚ) (r : String),
      _high_risk_flag t (mkRiskRecord o l te f r) =
        .ok (decide (o > t ∨ l > t ∨ te > t ∨ f > t)) := by
    intro t o l te f r
    by_cases h1 : o > t <;> by_cases h2 : l > t <;> by_cases h3 : te > t <;> by_cases h4 : f > t <;>
      simp [_high_risk_flag, mkRiskRecord, RISK_SCORE_KEYS, anyExceeds, pyIndex, pyLookup,
        pyFloatFn, h1, h2, h3, h4]
  refine ⟨hgen, rfl, ?_, ?_⟩
  · rw [hgen]; norm_num
  · rw [hgen]; norm_num

/-- On a boolean-scored record every check before the rationale check
passes, so the risk validator reduces to the rationale blank test. -/
theorem validate_boolRecord_reduce (b1 b2 b3 b4 : Bool) (r : String) :
    _validate_risk_output (boolRiskRecord b1 b2 b3 b4 r) =
      if pyStrip r = "" then
        .error (.valueError ("Field " ++ pySQuote ++ "rationale" ++ pySQuote ++
          " must be a non-empty string"))
      else .ok () := by
  cases b1 <;> cases b2 <;> cases b3 <;> cases b4 <;> rfl

/-- On a boolean-scored record the high-risk flag reduces to a chain of
threshold comparisons against 1 (`True`) and 0 (`False`). -/
theorem flag_boolRecord_reduce (t : ℚ) (b1 b2 b3 b4 : Bool) (r : String) :
    _high_risk_flag t (boolRiskRecord b1 b2 b3 b4 r) =
      (if (if b1 then (1:ℚ) else 0) > t then .ok true
       else if (if b2 then (1:ℚ) else 0) > t then .ok true
       else if (if b3 then (1:ℚ) else 0) > t then .ok true
       else if (if b4 then (1:ℚ) else 0) > t then .ok true
       else .ok false) := by
  cases b1 <;> cases b2 <;> cases b3 <;> cases b4 <;>
    by_cases h1 : (1:ℚ) > t <;> by_cases h0 : (0:ℚ) > t <;>
      simp only [_high_risk_flag, boolRiskRecord, RISK_SCORE_KEYS, anyExceeds, pyIndex, pyLookup,
        pyFloatFn, if_pos, if_neg, h1, h0, if_true, if_false, ite_true, ite_false] <;>
      simp [h1, h0]

/-- C10: the risk validator accepts Python booleans as numeric scores (`bool`
is a subtype of `int`, so booleans pass both the number-type check and the
0-to-10 range check), and `_high_risk_flag` then treats `True` as `1.0` and
`False` as `0.0` via its float conversion. -/
theorem risk_validator_accepts_bool_scores (b1 b2 b3 b4 : Bool) (r : String)
    (h : pyStrip r ≠ "") :
    _validate_risk_output (boolRiskRecord b1 b2 b3 b4 r) = .ok ()
  ∧ ∀ t : ℚ, _high_risk_flag t (boolRiskRecord b1 b2 b3 b4 r) =
      .ok (decide ((if b1 then (1:ℚ) else 0) > t ∨ (if b2 then (1:ℚ) else 0) > t ∨
        (if b3 then (1:ℚ) else 0) > t ∨ (if b4 then (1:ℚ) else 0) > t)) := by
  constructor
  · rw [validate_boolRecord_reduce, if_neg h]
  · intro t
    rw [flag_boolRecord_reduce]
    cases b1 <;> cases b2 <;> cases b3 <;> cases b4 <;>
      by_cases h1 : (1:ℚ) > t <;> by_cases h0 : (0:ℚ) > t <;>
        simp [h1, h0]

/-- Witness for C10: concrete boolean-scored record with a non-blank
rationale passes validation. -/
theorem risk_validator_accepts_bool_scores_witness :
    pyStrip "ok" ≠ "" ∧
      _validate_risk_output (boolRiskRecord true false true false "ok") = .ok () :=
  ⟨by decide, (risk_validator_accepts_bool_scores true false true false "ok" (by decide)).1⟩


/-- `isNone` decides equality with `PyValue.none`. -/
theorem PyValue.isNone_iff (v : PyValue) : v.isNone = true ↔ v = PyValue.none := by
  cases v <;> simp [PyValue.isNone]

/-- `None is None`. -/
theorem isNone_none : PyValue.isNone PyValue.none = true := rfl

/-- Looking a key up after a value-only rewrite of an association list. -/
theorem pyLookup_map_val (f : String → PyValue → PyValue) (l : List (String × PyValue))
    (k : String) :
    pyLookup (l.map (fun kv => (kv.1, f kv.1 kv.2))) k = (pyLookup l k).map (f k) := by
  induction l with
  | nil => rfl
  | cons hd tl ih =>
    by_cases h : hd.1 = k
    · simp [pyLookup, h]
    · simp [pyLookup, h, ih]

/-- Looking a key up in a constant-valued association list. -/
theorem pyLookup_const (ks : List String) (c : PyValue) (k : String) :
    pyLookup (ks.map (fun k => (k, c))) k = if k ∈ ks then some c else Option.none := by
  induction ks with
  | nil => rfl
  | cons hd tl ih =>
    by_cases h : hd = k
    · simp [pyLookup, h]
    · simp [pyLookup, h, ih, Ne.symm h]

/-- One merge step only rewrites values: a lookup through `mergeStep` is the
first-wins update of the old value. -/
theorem pyLookup_mergeStep (merged ext : List (String × PyValue)) (k : String) :
    pyLookup (mergeStep merged ext) k =
      (pyLookup merged k).map
        (fun v => if v.isNone ∧ ¬ (pyGet ext k).isNone then pyGet ext k else v) := by
  simpa [mergeStep] using
    pyLookup_map_val (fun k v => if v.isNone ∧ ¬ (pyGet ext k).isNone then pyGet ext k else v)
      merged k

/-- The merge fold fills a null accumulator entry with the first non-null
value the extraction list supplies for that key. -/
theorem pyLookup_merge_foldl (exts : List (List (String × PyValue)))
    (acc : List (String × PyValue)) (k : String) :
    pyLookup (exts.foldl mergeStep acc) k =
      (pyLookup acc k).map
        (fun v => if v.isNone then firstNonNull (exts.map (fun e => pyGet e k)) else v) := by
  induction exts generalizing acc with
  | nil =>
    cases h : pyLookup acc k with
    | none => simp [h]
    | some v => cases v <;> simp [h, firstNonNull, PyValue.isNone]
  | cons e rest ih =>
    show pyLookup (rest.foldl mergeStep (mergeStep acc e)) k = _
    rw [ih, pyLookup_mergeStep]
    cases h : pyLookup acc k with
    | none => simp [h]
    | some v =>
      simp only [h, Option.map_map, Function.comp]
      by_cases hv : v.isNone = true
      · rw [PyValue.isNone_iff] at hv
        subst hv
        by_cases he : (pyGet e k).isNone = true
        · rw [PyValue.isNone_iff] at he
          simp [he, firstNonNull, isNone_none]
        · have he' : (pyGet e k).isNone = false := by simpa using he
          simp [he', firstNonNull, isNone_none]
      · have hv' : v.isNone = false := by simpa using hv
        simp [hv', firstNonNull]

/-- `mergeStep` preserves the key sequence. -/
theorem mergeStep_keys (merged ext : List (String × PyValue)) :
    (mergeStep merged ext).map Prod.fst = merged.map Prod.fst := by
  simp [mergeStep, List.map_map, Function.comp]

/-- The full merge fold preserves the key sequence of the accumulator. -/
theorem merge_foldl_keys (exts : List (List (String × PyValue)))
    (acc : List (String × PyValue)) :
    (exts.foldl mergeStep acc).map Prod.fst = acc.map Prod.fst := by
  induction exts generalizing acc with
  | nil => rfl
  | cons e rest ih =>
    show (rest.foldl mergeStep (mergeStep acc e)).map Prod.fst = _
    rw [ih, mergeStep_keys]

/-- Each merged field is the first non-null value the extraction sequence
supplies for it. -/
theorem pyGet_merge_firstNonNull (exts : List (List (String × PyValue))) (k : String)
    (hk : k ∈ FIELDS) :
    pyGet (_merge_extractions exts) k = firstNonNull (exts.map (fun e => pyGet e k)) := by
  have hl : pyLookup (_merge_extractions exts) k =
      some (firstNonNull (exts.map (fun e => pyGet e k))) := by
    unfold _merge_extractions
    rw [pyLookup_merge_foldl, pyLookup_const, if_pos hk]
    simp [isNone_none]
  show (pyLookup (_merge_extractions exts) k).getD PyValue.none = _
  rw [hl]
  rfl

/-- The merged record's key sequence is exactly the 7 fields. -/
theorem merge_keys_eq_FIELDS (exts : List (List (String × PyValue))) :
    (_merge_extractions exts).map Prod.fst = FIELDS := by
  unfold _merge_extractions
  rw [merge_foldl_keys]
  rfl

/-- C3: the cross-chunk merge assigns to each of the 7 fields the value of
the first record (in sequence order) where the field is non-null, and null
when no record supplies one; later records never override a filled field.
The merged record's key sequence is exactly the 7 fields, and on the spec's
two-record example the merge yields `governing_law = "NY"` (second record)
and `payment_terms = "Net 30"` (first record), all other fields null. -/
theorem merge_first_non_null_wins :
    (∀ (exts : List (List (String × PyValue))) (k : String), k ∈ FIELDS →
      pyGet (_merge_extractions exts) k = firstNonNull (exts.map (fun e => pyGet e k)))
  ∧ (∀ exts, (_merge_extractions exts).map Prod.fst = FIELDS)
  ∧ _merge_extractions [mergeExample1, mergeExample2] = mergeExpected :=
  ⟨pyGet_merge_firstNonNull, merge_keys_eq_FIELDS, by rfl⟩

/-- Witness for C3: the general first-non-null characterization evaluated on
the spec's example at the `governing_law` field. -/
theorem merge_first_non_null_wins_witness :
    ("governing_law" ∈ FIELDS) ∧
      pyGet (_merge_extractions [mergeExample1, mergeExample2]) "governing_law" =
        firstNonNull ([mergeExample1, mergeExample2].map (fun e => pyGet e "governing_law")) :=
  ⟨by decide, merge_first_non_null_wins.1 [mergeExample1, mergeExample2] "governing_law"
    (by decide)⟩

/-- Membership in a sort-insertion. -/
theorem mem_pySortInsert (a b : String) (l : List String) :
    b ∈ pySortInsert a l ↔ b = a ∨ b ∈ l := by
  induction l with
  | nil => simp [pySortInsert]
  | cons c rest ih =>
    by_cases h : a ≤ c
    · simp [pySortInsert, h]
    · simp [pySortInsert, h, ih]
      tauto

/-- `pySorted` preserves membership. -/
theorem mem_pySorted (a : String) (l : List String) : a ∈ pySorted l ↔ a ∈ l := by
  induction l with
  | nil => simp [pySorted]
  | cons b rest ih =>
    show a ∈ pySortInsert b (pySorted rest) ↔ _
    rw [mem_pySortInsert, ih]
    simp

/-- Sort-insertion never produces the empty list. -/
theorem pySortInsert_ne_nil (a : String) (l : List String) : pySortInsert a l ≠ [] := by
  cases l with
  | nil => simp [pySortInsert]
  | cons c rest =>
    by_cases h : a ≤ c <;> simp [pySortInsert, h]

/-- `pySorted` yields the empty list exactly on the empty list. -/
theorem pySorted_eq_nil_iff (l : List String) : pySorted l = [] ↔ l = [] := by
  cases l with
  | nil => simp [pySorted]
  | cons b rest =>
    constructor
    · intro h
      exact absurd h (pySortInsert_ne_nil b (pySorted rest))
    · intro h
      exact absurd h (List.cons_ne_nil b rest)

/-- A key's lookup succeeds exactly when the key occurs in the key list. -/
theorem pyLookup_isSome_iff (kvs : List (String × PyValue)) (k : String) :
    (pyLookup kvs k).isSome = true ↔ k ∈ kvs.map Prod.fst := by
  induction kvs with
  | nil => simp [pyLookup]
  | cons hd tl ih =>
    by_cases h : hd.1 = k
    · simp [pyLookup, h]
    · simp [pyLookup, h, ih, Ne.symm h]

/-- A successful lookup returns a pair of the list. -/
theorem pyLookup_mem (kvs : List (String × PyValue)) (k : String) (v : PyValue)
    (h : pyLookup kvs k = some v) : (k, v) ∈ kvs := by
  induction kvs with
  | nil => simp [pyLookup] at h
  | cons hd tl ih =>
    by_cases hk : hd.1 = k
    · rw [pyLookup, if_pos hk] at h
      have : hd = (k, v) := by
        cases hd
        cases h
        simp_all
      simp [this]
    · rw [pyLookup, if_neg hk] at h
      exact List.mem_cons_of_mem hd (ih h)

/-- With unique keys, lookup finds exactly the value paired with the key. -/
theorem pyLookup_nodup_eq (kvs : List (String × PyValue))
    (hn : (kvs.map Prod.fst).Nodup) (k : String) (v : PyValue)
    (hm : (k, v) ∈ kvs) : pyLookup kvs k = some v := by
  induction kvs with
  | nil => simp at hm
  | cons hd tl ih =>
    rcases List.mem_cons.mp hm with h | h
    · rw [pyLookup, if_pos (by rw [← h])]
      rw [← h]
    · have hk : hd.1 ≠ k := by
        intro hk
        have : k ∈ tl.map Prod.fst := List.mem_map.mpr ⟨(k, v), h, rfl⟩
        rw [List.map_cons, List.nodup_cons] at hn
        exact hn.1 (hk ▸ this)
      rw [pyLookup, if_neg hk]
      exact ih (List.nodup_cons.mp (by simpa using hn)).2 h

/-- A filter for keys outside the allowed set is empty exactly when every
key is allowed. -/
theorem keysFilter_eq_nil_iff (keys allowed : List String) :
    keys.filter (fun k => ¬ allowed.contains k) = [] ↔ ∀ k ∈ keys, k ∈ allowed := by
  simp [List.filter_eq_nil_iff, List.contains]

/-- The field-type loop accepts exactly when every listed field's value is
`None` or a string. -/
theorem checkTypes_ok_iff (kvs : List (String × PyValue)) (ks : List String) :
    checkExtractionFieldTypes kvs ks = .ok () ↔
      ∀ k ∈ ks, (pyGet kvs k).isNone ∨ (pyGet kvs k).isStr := by
  induction ks with
  | nil => simp [checkExtractionFieldTypes]
  | cons k rest ih =>
    by_cases h : (¬ (pyGet kvs k).isNone ∧ ¬ (pyGet kvs k).isStr : Prop)
    · simp only [checkExtractionFieldTypes, if_pos h]
      constructor
      · intro hc
        cases hc
      · intro hc
        exact absurd (hc k (List.mem_cons_self k rest)) (by tauto)
    · simp only [checkExtractionFieldTypes, if_neg h]
      rw [ih]
      constructor
      · intro hc k' hk'
        rcases List.mem_cons.mp hk' with h' | h'
        · subst h'
          tauto
        · exact hc k' h'
      · intro hc k' hk'
        exact hc k' (List.mem_cons_of_mem k hk')

/-- The field-type loop either accepts or fails at some listed field with
the source's per-field error message. -/
theorem checkTypes_ok_or_field_error (kvs : List (String × PyValue)) (ks : List String) :
    checkExtractionFieldTypes kvs ks = .ok () ∨
      ∃ k ∈ ks, checkExtractionFieldTypes kvs ks =
          .error (.valueError ("Field " ++ pySQuote ++ k ++ pySQuote ++ " must be string or null"))
        ∧ ¬ ((pyGet kvs k).isNone ∨ (pyGet kvs k).isStr) := by
  induction ks with
  | nil => exact Or.inl rfl
  | cons k rest ih =>
    by_cases h : (¬ (pyGet kvs k).isNone ∧ ¬ (pyGet kvs k).isStr : Prop)
    · refine Or.inr ⟨k, List.mem_cons_self k rest, ?_, by tauto⟩
      simp only [checkExtractionFieldTypes, if_pos h]
    · rcases ih with hok | ⟨k', hk', herr, hbad⟩
      · exact Or.inl (by simp only [checkExtractionFieldTypes, if_neg h]; exact hok)
      · refine Or.inr ⟨k', List.mem_cons_of_mem k hk', ?_, hbad⟩
        simp only [checkExtractionFieldTypes, if_neg h]
        exact herr

/-- The unexpected-keys stage passes exactly when every key is allowed. -/
theorem extraCheck_iff (keys allowed : List String) :
    (pySorted ((keys.filter (fun k => ¬ allowed.contains k)).dedup)).isEmpty = true ↔
      ∀ k ∈ keys, k ∈ allowed := by
  rw [List.isEmpty_iff, pySorted_eq_nil_iff, List.dedup_eq_nil]
  exact keysFilter_eq_nil_iff keys allowed

/-- The missing-keys stage passes exactly when every required key occurs. -/
theorem missingCheck_iff (keys required : List String) :
    (required.filter (fun k => ¬ keys.contains k)).isEmpty = true ↔
      ∀ k ∈ required, k ∈ keys := by
  rw [List.isEmpty_iff]
  exact keysFilter_eq_nil_iff required keys

/-- C8: the extraction schema validator accepts exactly the dicts whose key
set is exactly the 7 allowed fields with every value a string or null, and it
fails fast in the fixed order: (a) non-dict first, (b) then unexpected keys,
(c) then missing required keys, (d) then a per-field type error; any mapping
containing a key outside the field set (such as `extra_field` alongside the 7
required fields) is rejected with the unexpected-fields error. -/
theorem schema_validator_closed_world :
    (∀ kvs : List (String × PyValue), (kvs.map Prod.fst).Nodup →
      (_validate_schema_minimal (.dict kvs) = .ok () ↔
        ((∀ k, k ∈ kvs.map Prod.fst ↔ k ∈ FIELDS) ∧ ∀ p ∈ kvs, p.2.isNone ∨ p.2.isStr)))
  ∧ (∀ v : PyValue, (∀ kvs, v ≠ .dict kvs) →
      _validate_schema_minimal v = .error (.valueError "Extraction output is not an object"))
  ∧ (∀ kvs : List (String × PyValue), (∃ k ∈ kvs.map Prod.fst, k ∉ FIELDS) →
      ∃ rest, _validate_schema_minimal (.dict kvs) =
        .error (.valueError ("Unexpected fields in output: " ++ rest)))
  ∧ (∀ kvs : List (String × PyValue), (∀ k ∈ kvs.map Prod.fst, k ∈ FIELDS) →
      (∃ k ∈ FIELDS, k ∉ kvs.map Prod.fst) →
      ∃ rest, _validate_schema_minimal (.dict kvs) =
        .error (.valueError ("Missing required fields: " ++ rest)))
  ∧ (∀ kvs : List (String × PyValue), (∀ k, k ∈ kvs.map Prod.fst ↔ k ∈ FIELDS) →
      (_validate_schema_minimal (.dict kvs) = .ok () ∨
        ∃ k ∈ FIELDS, _validate_schema_minimal (.dict kvs) =
            .error (.valueError ("Field " ++ pySQuote ++ k ++ pySQuote ++
              " must be string or null"))
          ∧ ¬ ((pyGet kvs k).isNone ∨ (pyGet kvs k).isStr)))
  ∧ _validate_schema_minimal (.dict schemaExtraFieldExample) =
      .error (.valueError ("Unexpected fields in output: [" ++ pySQuote ++ "extra_field" ++
        pySQuote ++ "]")) := by
  refine ⟨?_, ?_, ?_, ?_, ?_, by rfl⟩
  · intro kvs hn
    constructor
    · intro h
      simp only [_validate_schema_minimal] at h
      split_ifs at h with h1 h2
      have hks1 := (extraCheck_iff (kvs.map Prod.fst) FIELDS).mp h1
      have hks2 := (missingCheck_iff (kvs.map Prod.fst) FIELDS).mp h2
      refine ⟨fun k => ⟨fun hk => hks1 k hk, fun hk => hks2 k hk⟩, ?_⟩
      intro p hp
      have hkmem : p.1 ∈ kvs.map Prod.fst := List.mem_map.mpr ⟨p, hp, rfl⟩
      have hl : pyLookup kvs p.1 = some p.2 := pyLookup_nodup_eq kvs hn p.1 p.2 hp
      have hg := (checkTypes_ok_iff kvs FIELDS).mp h p.1 (hks1 _ hkmem)
      simpa [pyGet, hl] using hg
    · rintro ⟨hks, hvals⟩
      have h1 := (extraCheck_iff (kvs.map Prod.fst) FIELDS).mpr (fun k hk => (hks k).mp hk)
      have h2 := (missingCheck_iff (kvs.map Prod.fst) FIELDS).mpr (fun k hk => (hks k).mpr hk)
      simp only [_validate_schema_minimal]
      split_ifs
      rw [checkTypes_ok_iff]
      intro k hk
      obtain ⟨v, hv⟩ :=
        Option.isSome_iff_exists.mp ((pyLookup_isSome_iff kvs k).mpr ((hks k).mpr hk))
      have := hvals (k, v) (pyLookup_mem kvs k v hv)
      simpa [pyGet, hv] using this
  · intro v hv
    cases v <;> first | rfl | exact absurd rfl (hv _)
  · intro kvs hex
    have hne : ¬ ((pySorted (((kvs.map Prod.fst).filter
        (fun k => ¬ FIELDS.contains k)).dedup)).isEmpty = true) := by
      rw [extraCheck_iff]
      intro hall
      obtain ⟨k, hk, hnot⟩ := hex
      exact hnot (hall k hk)
    refine ⟨pyReprStrList (pySorted (((kvs.map Prod.fst).filter
      (fun k => ¬ FIELDS.contains k)).dedup)), ?_⟩
    simp only [_validate_schema_minimal]
    split_ifs
    rfl
  · intro kvs hall hex
    have h1 := (extraCheck_iff (kvs.map Prod.fst) FIELDS).mpr hall
    have hne2 : ¬ ((FIELDS.filter (fun k => ¬ (kvs.map Prod.fst).contains k)).isEmpty = true) := by
      rw [missingCheck_iff]
      intro hmall
      obtain ⟨k, hk, hnot⟩ := hex
      exact hnot (hmall k hk)
    refine ⟨pyReprStrList (FIELDS.filter (fun k => ¬ (kvs.map Prod.fst).contains k)), ?_⟩
    simp only [_validate_schema_minimal]
    split_ifs
    rfl
  · intro kvs hks
    have hva : _validate_schema_minimal (.dict kvs) = checkExtractionFieldTypes kvs FIELDS := by
      have h1 := (extraCheck_iff (kvs.map Prod.fst) FIELDS).mpr (fun k hk => (hks k).mp hk)
      have h2 := (missingCheck_iff (kvs.map Prod.fst) FIELDS).mpr (fun k hk => (hks k).mpr hk)
      simp only [_validate_schema_minimal]
      split_ifs
      rfl
    rw [hva]
    exact checkTypes_ok_or_field_error kvs FIELDS

/-- Witness for C8: the spec's `extra_field` example is rejected with the
unexpected-fields error. -/
theorem schema_validator_closed_world_witness :
    ∃ rest, _validate_schema_minimal (.dict schemaExtraFieldExample) =
      .error (.valueError ("Unexpected fields in output: " ++ rest)) :=
  schema_validator_closed_world.2.2.1 schemaExtraFieldExample (by decide)

/-- `json.loads` never raises the recovery wrapper's no-JSON-found
`ValueError`: its failures are decode errors. -/
theorem json_loads_not_noJson (cs : List Char) (m : String) :
    json_loads cs ≠ .error (.valueError m) := by
  intro h
  unfold json_loads at h
  cases hp : parseJsonValue (cs.length + 1) cs with
  | none =>
    rw [hp] at h
    injection h with h2
    exact PyErr.noConfusion h2
  | some p =>
    rw [hp] at h
    obtain ⟨v, rest⟩ := p
    dsimp only at h
    split_ifs at h
    injection h with h2
    exact PyErr.noConfusion h2

/-- If the first character is `c`, `find` returns index 0. -/
theorem strFind_head (t : List Char) (c : Char) (h : t.head? = some c) :
    strFind t c = some 0 := by
  cases t with
  | nil => simp at h
  | cons a rest =>
    have : a = c := by simpa using h
    subst this
    simp [strFind, List.findIdx?_cons]

/-- If the last character is `c`, `rfind` returns the last index. -/
theorem strRfind_getLast (t : List Char) (c : Char) (h : t.getLast? = some c) :
    strRfind t c = some (t.length - 1) := by
  induction t with
  | nil => simp at h
  | cons a rest ih =>
    cases rest with
    | nil =>
      have : a = c := by simpa using h
      subst this
      simp [strRfind]
    | cons b r2 =>
      have h2 : (b :: r2).getLast? = some c := by
        rwa [List.getLast?_cons_cons] at h
      have hr := ih h2
      have hstep : strRfind (a :: b :: r2) c =
          (match strRfind (b :: r2) c with
           | some i => some (i + 1)
           | Option.none => if a = c then some 0 else Option.none) := rfl
      rw [hstep, hr]
      show some ((b :: r2).length - 1 + 1) = some ((a :: b :: r2).length - 1)
      exact congrArg some (by simp only [List.length_cons]; omega)

/-- C7: the JSON recovery parser raises the no-JSON-found `ValueError`
exactly when the stripped text has no first `{` strictly before a last `}`;
when such a pair exists but the trimmed text is not itself brace-delimited,
it parses the inclusive substring between the pair; the spec's example text
parses to `{"a": 1}` and a brace-free text raises the no-JSON-found error. -/
theorem json_recovery_first_last_brace :
    (∀ text : List Char,
      _json_loads_safely text = .error (.valueError "No JSON object found in model output") ↔
        ¬ hasBracketPair (stripChars text))
  ∧ (∀ (text : List Char) (s e : Nat),
      ¬ ((stripChars text).head? = some '{' ∧ (stripChars text).getLast? = some '}') →
      strFind (stripChars text) '{' = some s → strRfind (stripChars text) '}' = some e →
      s < e →
      _json_loads_safely text = json_loads (((stripChars text).drop s).take (e + 1 - s)))
  ∧ _json_loads_safely ("Here is the result: \x7b\"a\":1\x7d -- end".toList) =
      .ok (.dict [("a", .int 1)])
  ∧ _json_loads_safely ("no braces here".toList) =
      .error (.valueError "No JSON object found in model output") := by
  refine ⟨?_, ?_, by rfl, by rfl⟩
  · intro text
    by_cases hb : (stripChars text).head? = some '{' ∧ (stripChars text).getLast? = some '}'
    · have hlen : 2 ≤ (stripChars text).length := by
        obtain ⟨h1, h2⟩ := hb
        cases ht : stripChars text with
        | nil => rw [ht] at h1; simp at h1
        | cons a rest =>
          cases rest with
          | nil =>
            rw [ht] at h1 h2
            simp at h1 h2
            rw [h1] at h2
            cases h2
          | cons b r2 => simp
      have hpair : hasBracketPair (stripChars text) := by
        obtain ⟨h1, h2⟩ := hb
        refine ⟨0, (stripChars text).length - 1, strFind_head _ _ h1,
          strRfind_getLast _ _ h2, by omega⟩
      constructor
      · intro h
        simp only [_json_loads_safely] at h
        rw [if_pos hb] at h
        exact absurd h (json_loads_not_noJson _ _)
      · intro h
        exact absurd hpair h
    · cases hf : strFind (stripChars text) '{' with
      | none =>
        have hv : _json_loads_safely text =
            .error (.valueError "No JSON object found in model output") := by
          simp only [_json_loads_safely]
          rw [if_neg hb]
          simp [hf]
        constructor
        · intro _
          rintro ⟨s, e, hf', _, _⟩
          rw [hf] at hf'
          cases hf'
        · intro _
          exact hv
      | some s =>
        cases hr : strRfind (stripChars text) '}' with
        | none =>
          have hv : _json_loads_safely text =
              .error (.valueError "No JSON object found in model output") := by
            simp only [_json_loads_safely]
            rw [if_neg hb]
            simp [hf, hr]
          constructor
          · intro _
            rintro ⟨s', e', _, hr', _⟩
            rw [hr] at hr'
            cases hr'
          · intro _
            exact hv
        | some e =>
          by_cases he : e > s
          · have hv : _json_loads_safely text =
                json_loads (((stripChars text).drop s).take (e + 1 - s)) := by
              simp only [_json_loads_safely]
              rw [if_neg hb]
              simp [hf, hr, he]
            constructor
            · intro h
              rw [hv] at h
              exact absurd h (json_loads_not_noJson _ _)
            · intro h
              exact absurd ⟨s, e, hf, hr, he⟩ h
          · have hv : _json_loads_safely text =
                .error (.valueError "No JSON object found in model output") := by
              simp only [_json_loads_safely]
              rw [if_neg hb]
              simp [hf, hr, he]
            constructor
            · intro _
              rintro ⟨s', e', hf', hr', hlt⟩
              rw [hf] at hf'
              rw [hr] at hr'
              cases hf'
              cases hr'
              exact he hlt
            · intro _
              exact hv
  · intro text s e hb hf hr hlt
    simp only [_json_loads_safely]
    rw [if_neg hb]
    simp [hf, hr, hlt]

/-- Every coerced value is a string or `None`. -/
theorem coerceValue_strOrNone (k : String) (v : PyValue) :
    (_coerce_value_to_string_or_none k v).isNone ∨ (_coerce_value_to_string_or_none k v).isStr := by
  cases v <;>
    simp only [_coerce_value_to_string_or_none] <;>
    first
      | (left; rfl)
      | (right; rfl)
      | (split_ifs <;> first | (left; rfl) | (right; rfl))

/-- C1 counterexample: the type-coercion step does not leave unexpected
top-level keys present — a raw mapping carrying `extra_field` has the key,
and the coerced output does not. -/
theorem coercion_drops_extra_key_cex :
    (pyLookup coerceExtraKeyInput "extra_field").isSome = true
  ∧ pyLookup (_coerce_extraction_types coerceExtraKeyInput) "extra_field" = Option.none := by
  constructor <;> rfl

/-- C1 (amended): `_coerce_extraction_types` returns a mapping whose key
sequence is exactly the 7 expected fields — unexpected top-level keys are
dropped and missing expected fields are filled from `obj.get` — with every
value normalized to a string or null; so the schema validator never sees an
unexpected key in coerced output. -/
theorem coercion_restricts_to_FIELDS (obj : List (String × PyValue)) :
    (_coerce_extraction_types obj).map Prod.fst = FIELDS
  ∧ (∀ k ∈ FIELDS, pyLookup (_coerce_extraction_types obj) k =
      some (_coerce_value_to_string_or_none k (pyGet obj k)))
  ∧ ∀ p ∈ _coerce_extraction_types obj, p.2.isNone ∨ p.2.isStr := by
  refine ⟨by rfl, ?_, ?_⟩
  · intro k hk
    fin_cases hk <;> rfl
  · intro p hp
    obtain ⟨k, hk, rfl⟩ := List.mem_map.mp hp
    exact coerceValue_strOrNone k (pyGet obj k)

/-- Witness for the amended C1: on the counterexample input the coerced
`governing_law` entry is the coercion of the raw value. -/
theorem coercion_restricts_to_FIELDS_witness :
    pyLookup (_coerce_extraction_types coerceExtraKeyInput) "governing_law" =
      some (_coerce_value_to_string_or_none "governing_law"
        (pyGet coerceExtraKeyInput "governing_law")) :=
  (coercion_restricts_to_FIELDS coerceExtraKeyInput).2.1 "governing_law" (by decide)

/-- Witness for C7: on the spec's example text the recovery parser parses
exactly the inclusive substring between the first `{` (index 20) and the
last `}` (index 26). -/
theorem json_recovery_first_last_brace_witness :
    _json_loads_safely ("Here is the result: \x7b\"a\":1\x7d -- end".toList) =
      json_loads (((stripChars ("Here is the result: \x7b\"a\":1\x7d -- end".toList)).drop 20).take
        (26 + 1 - 20)) :=
  json_recovery_first_last_brace.2.1 _ 20 26 (by decide) (by decide) (by decide) (by decide)

/-- A `". "` hit lies strictly inside the window (both characters fit). -/
theorem rfindDotSpace_lt : ∀ (w : List Char) (k : Nat),
    rfindDotSpace w = some k → k + 1 < w.length := by
  intro w
  induction w with
  | nil => intro k h; simp [rfindDotSpace] at h
  | cons c1 tail ih =>
    intro k h
    cases tail with
    | nil => simp [rfindDotSpace] at h
    | cons c2 rest =>
      have hstep : rfindDotSpace (c1 :: c2 :: rest) =
          (match rfindDotSpace (c2 :: rest) with
           | some k => some (k + 1)
           | Option.none => if c1 = '.' ∧ c2 = ' ' then some 0 else Option.none) := rfl
      rw [hstep] at h
      cases hr : rfindDotSpace (c2 :: rest) with
      | some k2 =>
        rw [hr] at h
        injection h with h2
        have := ih k2 hr
        simp only [List.length_cons] at *
        omega
      | none =>
        rw [hr] at h
        split_ifs at h
        injection h with h2
        simp only [List.length_cons]
        omega

/-- An `rfind` hit is an in-window index. -/
theorem strRfind_lt : ∀ (w : List Char) (c : Char) (k : Nat),
    strRfind w c = some k → k < w.length := by
  intro w
  induction w with
  | nil => intro c k h; simp [strRfind] at h
  | cons a rest ih =>
    intro c k h
    have hstep : strRfind (a :: rest) c =
        (match strRfind rest c with
         | some i => some (i + 1)
         | Option.none => if a = c then some 0 else Option.none) := rfl
    rw [hstep] at h
    cases hr : strRfind rest c with
    | some i =>
      rw [hr] at h
      injection h with h2
      have := ih c i hr
      simp only [List.length_cons]
      omega
    | none =>
      rw [hr] at h
      split_ifs at h
      injection h with h2
      simp only [List.length_cons]
      omega

/-- The boundary candidate is an in-window index. -/
theorem chunkCandidate_lt (m : Nat) (w : List Char) (c : Nat)
    (h : chunkCandidate m w = some c) : c < w.length := by
  unfold chunkCandidate at h
  cases hd : rfindDotSpace w with
  | some k =>
    rw [hd] at h
    dsimp only at h
    split_ifs at h
    · exact strRfind_lt w ' ' c h
    · injection h with h2
      have := rfindDotSpace_lt w k hd
      omega
  | none =>
    rw [hd] at h
    exact strRfind_lt w ' ' c h

/-- The cut never exceeds the window edge. -/
theorem chunkCut_le (m : Nat) (rest : List Char) : chunkCut m rest ≤ min m rest.length := by
  unfold chunkCut
  cases hc : chunkCandidate m (rest.take (min m rest.length)) with
  | none => simp [hc]
  | some c =>
    simp only [hc]
    split_ifs
    · exact le_refl _
    · have hlt := chunkCandidate_lt m _ c hc
      have hwl : (rest.take (min m rest.length)).length ≤ min m rest.length := by
        simp [List.length_take]
      omega

/-- With a positive chunk size and nonempty text the loop always advances. -/
theorem chunkCut_pos (m : Nat) (rest : List Char) (hm : 1 ≤ m) (hne : rest ≠ []) :
    1 ≤ chunkCut m rest := by
  unfold chunkCut
  have hj : 1 ≤ min m rest.length := by
    have : 0 < rest.length := List.length_pos.mpr hne
    omega
  cases hc : chunkCandidate m (rest.take (min m rest.length)) with
  | none =>
    simp only [hc]
    exact hj
  | some c =>
    simp only [hc]
    split_ifs with h0
    · exact hj
    · omega

/-- Concatenating the raw pieces of the chunking loop reconstructs the text
exactly (fuel at least the text length). -/
theorem chunkLoopF_join (m : Nat) (hm : 1 ≤ m) :
    ∀ (fuel : Nat) (rest : List Char), rest.length ≤ fuel →
      (chunkLoopF m fuel rest).join = rest := by
  intro fuel
  induction fuel with
  | zero =>
    intro rest h
    cases rest with
    | nil => rfl
    | cons c cs => simp at h
  | succ fuel ih =>
    intro rest h
    cases rest with
    | nil => rfl
    | cons c cs =>
      have hpos := chunkCut_pos m (c :: cs) hm (by simp)
      have hih := ih ((c :: cs).drop (chunkCut m (c :: cs)))
        (by simp only [List.length_drop, List.length_cons] at *; omega)
      show (c :: cs).take (chunkCut m (c :: cs)) ++
        (chunkLoopF m fuel ((c :: cs).drop (chunkCut m (c :: cs)))).join = c :: cs
      rw [hih, List.take_append_drop]

/-- Every raw piece of the chunking loop fits in `m` characters. -/
theorem chunkLoopF_length_le (m : Nat) :
    ∀ (fuel : Nat) (rest piece : List Char), piece ∈ chunkLoopF m fuel rest →
      piece.length ≤ m := by
  intro fuel
  induction fuel with
  | zero => intro rest piece h; simp [chunkLoopF] at h
  | succ fuel ih =>
    intro rest piece h
    cases rest with
    | nil => simp [chunkLoopF] at h
    | cons c cs =>
      rcases List.mem_cons.mp h with h1 | h1
      · subst h1
        have := chunkCut_le m (c :: cs)
        simp only [List.length_take]
        omega
      · exact ih _ piece h1

/-- Stripping never lengthens a piece. -/
theorem stripChars_length_le (cs : List Char) : (stripChars cs).length ≤ cs.length := by
  unfold stripChars
  have h1 := (List.dropWhile_sublist (l := cs) pyIsSpace).length_le
  have h2 := (List.dropWhile_sublist (l := (cs.dropWhile pyIsSpace).reverse) pyIsSpace).length_le
  simp only [List.length_reverse] at *
  omega

/-- C6: with positive `max_chars`, a text whose whitespace-normalized form
fits yields exactly one chunk equal to the normalized input; otherwise the
chunks are the stripped non-empty pieces of a partition whose concatenation
is exactly the normalized input (coverage up to trimmed boundary
whitespace); and every chunk's length is at most `max_chars`. -/
theorem segmenter_roundtrip_coverage (t : List Char) (m : Nat) (hm : 1 ≤ m) :
    ((normalizeWs t).length ≤ m → _chunk_text t m = [normalizeWs t])
  ∧ (m < (normalizeWs t).length →
      ∃ pieces : List (List Char), pieces.join = normalizeWs t ∧
        _chunk_text t m = (pieces.map stripChars).filter (fun c => ¬ c.isEmpty))
  ∧ ∀ c ∈ _chunk_text t m, c.length ≤ m := by
  refine ⟨?_, ?_, ?_⟩
  · intro h
    simp [_chunk_text, h]
  · intro h
    have hnle : ¬ (normalizeWs t).length ≤ m := by omega
    refine ⟨chunkLoopF m (normalizeWs t).length (normalizeWs t),
      chunkLoopF_join m hm _ _ (le_refl _), ?_⟩
    simp [_chunk_text, hnle]
  · intro c hc
    by_cases h : (normalizeWs t).length ≤ m
    · simp [_chunk_text, h] at hc
      subst hc
      exact h
    · simp only [_chunk_text, if_neg h] at hc
      obtain ⟨hc1, _⟩ := List.mem_filter.mp hc
      obtain ⟨piece, hpm, rfl⟩ := List.mem_map.mp hc1
      calc (stripChars piece).length ≤ piece.length := stripChars_length_le piece
        _ ≤ m := chunkLoopF_length_le m _ _ piece hpm

/-- Witness for C6: a short text yields the single normalized chunk. -/
theorem segmenter_roundtrip_coverage_witness :
    _chunk_text ("hello   world".toList) 20 = [normalizeWs ("hello   world".toList)] :=
  (segmenter_roundtrip_coverage ("hello   world".toList) 20 (by decide)).1 (by decide)

/-- If every poll before relative index `i` continues and poll `i` decides,
the loop returns that decision after exactly `i` sleeps. -/
theorem waitPollLoop_reaches (poll : Nat → TextractResp) (elapsed : Nat → ℚ) (timeout : ℚ) :
    ∀ (fuel i k : Nat), i < fuel →
      (∀ j < i, pollOutcome (poll (k + j)) (elapsed (k + j)) timeout = Option.none) →
      ∀ r, pollOutcome (poll (k + i)) (elapsed (k + i)) timeout = some r →
      waitPollLoop poll elapsed timeout fuel k = some (r, i) := by
  intro fuel
  induction fuel with
  | zero => intro i k hi; omega
  | succ fuel ih =>
    intro i k hi hpre r hout
    cases i with
    | zero =>
      have : pollOutcome (poll k) (elapsed k) timeout = some r := by simpa using hout
      show (match pollOutcome (poll k) (elapsed k) timeout with
        | some r => some (r, 0)
        | Option.none =>
          match waitPollLoop poll elapsed timeout fuel (k + 1) with
          | some (r, n) => some (r, n + 1)
          | Option.none => Option.none) = some (r, 0)
      rw [this]
    | succ i =>
      have h0 : pollOutcome (poll k) (elapsed k) timeout = Option.none := by
        simpa using hpre 0 (Nat.succ_pos i)
      have hpre2 : ∀ j < i, pollOutcome (poll (k + 1 + j)) (elapsed (k + 1 + j)) timeout =
          Option.none := by
        intro j hj
        have := hpre (j + 1) (by omega)
        have harith : k + (j + 1) = k + 1 + j := by omega
        rwa [harith] at this
      have hout2 : pollOutcome (poll (k + 1 + i)) (elapsed (k + 1 + i)) timeout = some r := by
        have harith : k + (i + 1) = k + 1 + i := by omega
        rwa [harith] at hout
      have hrec := ih i (k + 1) (by omega) hpre2 r hout2
      show (match pollOutcome (poll k) (elapsed k) timeout with
        | some r => some (r, 0)
        | Option.none =>
          match waitPollLoop poll elapsed timeout fuel (k + 1) with
          | some (r, n) => some (r, n + 1)
          | Option.none => Option.none) = some (r, i + 1)
      rw [h0, hrec]

/-- A poll with a non-terminal status within the timeout continues. -/
theorem pollOutcome_none (resp : TextractResp) (el timeout : ℚ)
    (h1 : resp.jobStatus ≠ some "SUCCEEDED") (h2 : resp.jobStatus ≠ some "PARTIAL_SUCCESS")
    (h3 : resp.jobStatus ≠ some "FAILED") (h4 : el ≤ timeout) :
    pollOutcome resp el timeout = Option.none := by
  simp [pollOutcome, h1, h2, h3, not_lt.mpr h4]

/-- C9: the OCR wait loop sleeps a fixed 2 seconds between polls; for every
observed status sequence it returns normally at the first `SUCCEEDED` or
`PARTIAL_SUCCESS` poll, raises the job-failed error carrying the response
(hence any status message) at the first `FAILED` poll, raises the timeout
error when the elapsed wall-clock time strictly exceeds the configured
timeout before a terminal status; and after a deciding poll it never polls
again — the result does not depend on any later poll or clock value. -/
theorem textract_wait_terminal_behavior :
    TEXTRACT_SLEEP_SECONDS = 2
  ∧ (∀ (poll : Nat → TextractResp) (elapsed : Nat → ℚ) (timeout : ℚ) (fuel k : Nat),
      k < fuel →
      (∀ j < k, (poll j).jobStatus ≠ some "SUCCEEDED" ∧
        (poll j).jobStatus ≠ some "PARTIAL_SUCCESS" ∧
        (poll j).jobStatus ≠ some "FAILED" ∧ elapsed j ≤ timeout) →
      ((poll k).jobStatus = some "SUCCEEDED" →
        _wait_for_textract poll elapsed (some timeout) fuel = some (.completed "SUCCEEDED", k))
      ∧ ((poll k).jobStatus = some "PARTIAL_SUCCESS" →
        _wait_for_textract poll elapsed (some timeout) fuel =
          some (.completed "PARTIAL_SUCCESS", k))
      ∧ ((poll k).jobStatus = some "FAILED" →
        _wait_for_textract poll elapsed (some timeout) fuel = some (.jobFailed (poll k), k))
      ∧ ((poll k).jobStatus ≠ some "SUCCEEDED" → (poll k).jobStatus ≠ some "PARTIAL_SUCCESS" →
          (poll k).jobStatus ≠ some "FAILED" → timeout < elapsed k →
        _wait_for_textract poll elapsed (some timeout) fuel =
          some (.timedOut (elapsed k) (poll k), k)))
  ∧ (∀ (poll poll' : Nat → TextractResp) (elapsed elapsed' : Nat → ℚ) (timeout : ℚ)
      (fuel fuel' k : Nat), k < fuel → k < fuel' →
      (∀ j ≤ k, poll j = poll' j ∧ elapsed j = elapsed' j) →
      (∀ j < k, (poll j).jobStatus ≠ some "SUCCEEDED" ∧
        (poll j).jobStatus ≠ some "PARTIAL_SUCCESS" ∧
        (poll j).jobStatus ≠ some "FAILED" ∧ elapsed j ≤ timeout) →
      pollOutcome (poll k) (elapsed k) timeout ≠ Option.none →
      _wait_for_textract poll elapsed (some timeout) fuel =
        _wait_for_textract poll' elapsed' (some timeout) fuel')
  ∧ TEXTRACT_WAIT_TIMEOUT_default = 300 := by
  refine ⟨rfl, ?_, ?_, rfl⟩
  · intro poll elapsed timeout fuel k hk hpre
    have hnone : ∀ j < k, pollOutcome (poll (0 + j)) (elapsed (0 + j)) timeout = Option.none := by
      intro j hj
      obtain ⟨a, b, c, d⟩ := hpre j hj
      simpa using pollOutcome_none _ _ _ a b c d
    refine ⟨?_, ?_, ?_, ?_⟩
    · intro hs
      exact waitPollLoop_reaches poll elapsed timeout fuel k 0 hk hnone _
        (by simp [pollOutcome, hs])
    · intro hs
      refine waitPollLoop_reaches poll elapsed timeout fuel k 0 hk hnone _ ?_
      simp [pollOutcome, hs]
    · intro hs
      refine waitPollLoop_reaches poll elapsed timeout fuel k 0 hk hnone _ ?_
      simp [pollOutcome, hs]
    · intro h1 h2 h3 ht
      refine waitPollLoop_reaches poll elapsed timeout fuel k 0 hk hnone _ ?_
      simp [pollOutcome, h1, h2, h3, ht]
  · intro poll poll' elapsed elapsed' timeout fuel fuel' k hk hk' hagree hpre hterm
    have hnone : ∀ j < k, pollOutcome (poll (0 + j)) (elapsed (0 + j)) timeout = Option.none := by
      intro j hj
      obtain ⟨a, b, c, d⟩ := hpre j hj
      simpa using pollOutcome_none _ _ _ a b c d
    have hnone' : ∀ j < k, pollOutcome (poll' (0 + j)) (elapsed' (0 + j)) timeout =
        Option.none := by
      intro j hj
      obtain ⟨hpj, hej⟩ := hagree j (by omega)
      rw [← (by simpa using hpj : poll (0 + j) = poll' (0 + j)),
        ← (by simpa using hej : elapsed (0 + j) = elapsed' (0 + j))]
      exact hnone j hj
    obtain ⟨r, hr⟩ := Option.ne_none_iff_exists.mp hterm
    have hr' : pollOutcome (poll' (0 + k)) (elapsed' (0 + k)) timeout = some r := by
      obtain ⟨hpk, hek⟩ := hagree k (le_refl k)
      rw [← (by simpa using hpk : poll (0 + k) = poll' (0 + k)),
        ← (by simpa using hek : elapsed (0 + k) = elapsed' (0 + k))]
      simpa using hr.symm
    rw [show _wait_for_textract poll elapsed (some timeout) fuel =
        waitPollLoop poll elapsed timeout fuel 0 from rfl,
      show _wait_for_textract poll' elapsed' (some timeout) fuel' =
        waitPollLoop poll' elapsed' timeout fuel' 0 from rfl,
      waitPollLoop_reaches poll elapsed timeout fuel k 0 hk hnone r (by simpa using hr.symm),
      waitPollLoop_reaches poll' elapsed' timeout fuel' k 0 hk' hnone' r hr']

/-- Witness for C9: two in-progress polls then `SUCCEEDED` returns normally
after exactly two sleeps. -/
theorem textract_wait_terminal_behavior_witness :
    _wait_for_textract
        (fun k => if k < 2 then ⟨some "IN_PROGRESS", Option.none⟩
                  else ⟨some "SUCCEEDED", Option.none⟩)
        (fun k => 2 * ((k : ℚ) + 1)) (some 300) 5 =
      some (.completed "SUCCEEDED", 2) :=
  (textract_wait_terminal_behavior.2.1 _ _ 300 5 2 (by decide)
    (by
      intro j hj
      interval_cases j <;> exact ⟨by decide, by decide, by decide, by norm_num⟩)).1 (by decide)

/-- Coercion emits the 7 fields in order. -/
theorem coerce_keys_eq (obj : List (String × PyValue)) :
    (_coerce_extraction_types obj).map Prod.fst = FIELDS := rfl

/-- A successful `_invoke_bedrock` extraction is a canonical record: the 7
fields in order, every value a string or null. -/
theorem invoke_ok_canonical (mt : Except PyErr String) (d : List (String × PyValue))
    (h : _invoke_bedrock_extract mt = .ok d) :
    d.map Prod.fst = FIELDS ∧ ∀ p ∈ d, p.2.isNone ∨ p.2.isStr := by
  simp only [_invoke_bedrock_extract] at h
  cases mt with
  | error e => exact Except.noConfusion h
  | ok txt =>
    dsimp only at h
    cases hl : _json_loads_safely txt.toList with
    | error e =>
      rw [hl] at h
      exact Except.noConfusion h
    | ok parsed =>
      rw [hl] at h
      dsimp only at h
      cases parsed with
      | dict kvs =>
        dsimp only at h
        cases hv : _validate_schema_minimal (.dict (_coerce_extraction_types kvs)) with
        | error e =>
          rw [hv] at h
          exact Except.noConfusion h
        | ok u =>
          rw [hv] at h
          have hd : _coerce_extraction_types kvs = d := Except.ok.inj h
          subst hd
          refine ⟨coerce_keys_eq kvs, ?_⟩
          intro p hp
          obtain ⟨k, hk, rfl⟩ := List.mem_map.mp hp
          exact coerceValue_strOrNone k (pyGet kvs k)
      | none => exact Except.noConfusion h
      | bool b => exact Except.noConfusion h
      | int n => exact Except.noConfusion h
      | float q => exact Except.noConfusion h
      | str s => exact Except.noConfusion h
      | list xs => exact Except.noConfusion h

/-- `get` on a canonical record yields a string or null. -/
theorem pyGet_canonical (e : List (String × PyValue))
    (h : ∀ p ∈ e, p.2.isNone ∨ p.2.isStr) (k : String) :
    (pyGet e k).isNone ∨ (pyGet e k).isStr := by
  cases hl : pyLookup e k with
  | none => simp [pyGet, hl, PyValue.isNone]
  | some v => simpa [pyGet, hl] using h (k, v) (pyLookup_mem e k v hl)

/-- The first non-null of string-or-null values is a string or null. -/
theorem firstNonNull_strOrNone (l : List PyValue)
    (h : ∀ v ∈ l, v.isNone ∨ v.isStr) : (firstNonNull l).isNone ∨ (firstNonNull l).isStr := by
  induction l with
  | nil => left; rfl
  | cons v rest ih =>
    by_cases hv : v.isNone = true
    · simp only [firstNonNull, hv, if_pos]
      exact ih (fun w hw => h w (List.mem_cons_of_mem v hw))
    · simp only [firstNonNull, hv, if_neg, Bool.false_eq_true, not_false_iff]
      simpa [hv] using h v (List.mem_cons_self v rest)

/-- The merge of canonical records passes the defensive re-validation. -/
theorem validate_merged_ok (exts : List (List (String × PyValue)))
    (hc : ∀ e ∈ exts, ∀ p ∈ e, p.2.isNone ∨ p.2.isStr) :
    _validate_schema_minimal (.dict (_merge_extractions exts)) = .ok () := by
  have hkeys := merge_keys_eq_FIELDS exts
  have hks : ∀ k, k ∈ (_merge_extractions exts).map Prod.fst ↔ k ∈ FIELDS := by
    intro k
    rw [hkeys]
  have h1 := (extraCheck_iff ((_merge_extractions exts).map Prod.fst) FIELDS).mpr
    (fun k hk => (hks k).mp hk)
  have h2 := (missingCheck_iff ((_merge_extractions exts).map Prod.fst) FIELDS).mpr
    (fun k hk => (hks k).mpr hk)
  simp only [_validate_schema_minimal]
  split_ifs
  rw [checkTypes_ok_iff]
  intro k hk
  rw [pyGet_merge_firstNonNull exts k hk]
  apply firstNonNull_strOrNone
  intro v hv
  obtain ⟨e, he, rfl⟩ := List.mem_map.mp hv
  exact pyGet_canonical e (hc e he) k

/-- The per-chunk loop computes, in chunk order, the successful records and
the indexed failure entries. -/
theorem extractionLoop_spec (modelText : Nat → Except PyErr String) :
    ∀ (chunks : List (List Char)) (idx : Nat),
      extractionLoop modelText idx chunks =
        ((List.range chunks.length).filterMap
           (fun j => (_invoke_bedrock_extract (modelText (idx + j))).toOption),
         (List.range chunks.length).filterMap
           (fun j =>
             match _invoke_bedrock_extract (modelText (idx + j)) with
             | .error e => some (chunkErrorEntry (idx + j) e)
             | .ok _ => Option.none)) := by
  intro chunks
  induction chunks with
  | nil => intro idx; rfl
  | cons c rest ih =>
    intro idx
    have hfun1 : (fun j => (_invoke_bedrock_extract (modelText (idx + 1 + j))).toOption) =
        (fun j => (_invoke_bedrock_extract (modelText (idx + (j + 1)))).toOption) := by
      funext j
      rw [show idx + 1 + j = idx + (j + 1) by omega]
    have hfun2 : (fun j =>
        match _invoke_bedrock_extract (modelText (idx + 1 + j)) with
        | .error e => some (chunkErrorEntry (idx + 1 + j) e)
        | .ok _ => Option.none) =
        (fun j =>
          match _invoke_bedrock_extract (modelText (idx + (j + 1))) with
          | .error e => some (chunkErrorEntry (idx + (j + 1)) e)
          | .ok _ => Option.none) := by
      funext j
      rw [show idx + 1 + j = idx + (j + 1) by omega]
    simp only [extractionLoop, ih (idx + 1), hfun1, hfun2, List.length_cons,
      List.range_succ_eq_map, List.filterMap_cons, List.filterMap_map, Function.comp]
    cases hi : _invoke_bedrock_extract (modelText idx) with
    | ok d =>
      simp [hi, Except.toOption, Nat.add_zero]
      exact ⟨rfl, rfl⟩
    | error e =>
      simp [hi, Except.toOption, Nat.add_zero]
      exact ⟨rfl, rfl⟩

/-- C4: per-chunk extraction failures are isolated.  The loop yields
exactly the successful chunks' records in chunk order as merge input, and
one formatted `chunk[i]: Kind: message` entry per failed chunk; when at
least one chunk succeeds the phase returns the INGESTED success result with
those failures in `bedrock_failures` and the merge of the successful
records; when every chunk fails it returns the all-extractions-failed error
result and no merge output appears. -/
theorem chunk_failure_isolation :
    (∀ (modelText : Nat → Except PyErr String) (chunks : List (List Char)),
      (extractionLoop modelText 0 chunks).1 =
        (List.range chunks.length).filterMap
          (fun i => (_invoke_bedrock_extract (modelText i)).toOption))
  ∧ (∀ (modelText : Nat → Except PyErr String) (chunks : List (List Char)),
      (extractionLoop modelText 0 chunks).2 =
        (List.range chunks.length).filterMap
          (fun i =>
            match _invoke_bedrock_extract (modelText i) with
            | .error e => some (chunkErrorEntry i e)
            | .ok _ => Option.none))
  ∧ (∀ (cid bucket key : PyValue) (modelText : Nat → Except PyErr String)
      (chunks : List (List Char)),
      (∃ i < chunks.length, (_invoke_bedrock_extract (modelText i)).toOption.isSome) →
      ingestExtractionPhase cid bucket key modelText chunks =
        ingestSuccessResult cid bucket key
          (_merge_extractions (extractionLoop modelText 0 chunks).1)
          chunks.length (extractionLoop modelText 0 chunks).2)
  ∧ (∀ (cid bucket key : PyValue) (modelText : Nat → Except PyErr String)
      (chunks : List (List Char)),
      (∀ i < chunks.length, ¬ (_invoke_bedrock_extract (modelText i)).toOption.isSome) →
      ingestExtractionPhase cid bucket key modelText chunks =
        errorResult cid ("All Bedrock extractions failed. Errors: " ++
          pyReprStrList ((extractionLoop modelText 0 chunks).2.take 3))) := by
  have hspec1 : ∀ (modelText : Nat → Except PyErr String) (chunks : List (List Char)),
      (extractionLoop modelText 0 chunks).1 =
        (List.range chunks.length).filterMap
          (fun i => (_invoke_bedrock_extract (modelText i)).toOption) := by
    intro modelText chunks
    rw [extractionLoop_spec modelText chunks 0]
    simp [Nat.zero_add]
  have hspec2 : ∀ (modelText : Nat → Except PyErr String) (chunks : List (List Char)),
      (extractionLoop modelText 0 chunks).2 =
        (List.range chunks.length).filterMap
          (fun i =>
            match _invoke_bedrock_extract (modelText i) with
            | .error e => some (chunkErrorEntry i e)
            | .ok _ => Option.none) := by
    intro modelText chunks
    rw [extractionLoop_spec modelText chunks 0]
    simp [Nat.zero_add]
  have hcanon : ∀ (modelText : Nat → Except PyErr String) (chunks : List (List Char)),
      ∀ e ∈ (extractionLoop modelText 0 chunks).1, ∀ p ∈ e, p.2.isNone ∨ p.2.isStr := by
    intro modelText chunks e he
    rw [hspec1 modelText chunks] at he
    obtain ⟨i, _, hi⟩ := List.mem_filterMap.mp he
    cases hx : _invoke_bedrock_extract (modelText i) with
    | error e2 => rw [hx] at hi; exact Option.noConfusion hi
    | ok d =>
      rw [hx] at hi
      have : d = e := by simpa [Except.toOption] using hi
      subst this
      exact (invoke_ok_canonical (modelText i) d hx).2
  refine ⟨hspec1, hspec2, ?_, ?_⟩
  · intro cid bucket key modelText chunks ⟨i, hi, hok⟩
    have hne : (extractionLoop modelText 0 chunks).1.isEmpty ≠ true := by
      obtain ⟨d, hd⟩ := Option.isSome_iff_exists.mp hok
      intro hemp
      have hnil := List.isEmpty_iff.mp hemp
      rw [hspec1 modelText chunks] at hnil
      have : d ∈ (List.range chunks.length).filterMap
          (fun i => (_invoke_bedrock_extract (modelText i)).toOption) :=
        List.mem_filterMap.mpr ⟨i, List.mem_range.mpr hi, hd⟩
      rw [hnil] at this
      exact absurd this (List.not_mem_nil d)
    simp only [ingestExtractionPhase]
    split_ifs with hc
    · exact absurd hc hne
    · rw [validate_merged_ok _ (hcanon modelText chunks)]
  · intro cid bucket key modelText chunks hall
    have hnil : (extractionLoop modelText 0 chunks).1 = [] := by
      rw [hspec1 modelText chunks]
      apply List.filterMap_eq_nil.mpr
      intro i hi
      have := hall i (List.mem_range.mp hi)
      cases hx : (_invoke_bedrock_extract (modelText i)).toOption with
      | none => rfl
      | some d => rw [hx] at this; simp at this
    simp only [ingestExtractionPhase]
    split_ifs with hc
    · rfl
    · exact absurd (by rw [List.isEmpty_iff]; exact hnil) hc

set_option maxRecDepth 100000 in
/-- Witness for C4: three chunks with chunk 1 failing — the phase succeeds
using chunks 0 and 2. -/
theorem chunk_failure_isolation_witness :
    ingestExtractionPhase (.str "c-1") (.str "b") (.str "k") c4ModelText
        [['a'], ['b'], ['c']] =
      ingestSuccessResult (.str "c-1") (.str "b") (.str "k")
        (_merge_extractions (extractionLoop c4ModelText 0 [['a'], ['b'], ['c']]).1)
        3 (extractionLoop c4ModelText 0 [['a'], ['b'], ['c']]).2 :=
  chunk_failure_isolation.2.2.1 (.str "c-1") (.str "b") (.str "k") c4ModelText
    [['a'], ['b'], ['c']] ⟨0, by decide, by decide⟩

/-- The ingestion error result carries `contract_id`, status `error` and a
`reason` string. -/
theorem errorResult_ingestShape (cid : PyValue) (reason : String) :
    ingestShape (errorResult cid reason) :=
  ⟨_, rfl, rfl, Or.inr ⟨rfl, reason, rfl⟩⟩

/-- The ingestion success result carries `contract_id` and status
`INGESTED`. -/
theorem ingestSuccess_ingestShape (cid b k : PyValue)
    (merged : List (String × PyValue)) (cc : Nat) (fl : List String) :
    ingestShape (ingestSuccessResult cid b k merged cc fl) :=
  ⟨_, rfl, rfl, Or.inl rfl⟩

/-- Every value of the extraction phase is one of the two shaped results. -/
theorem ingestPhase_ingestShape (cid b k : PyValue)
    (mt : Nat → Except PyErr String) (chunks : List (List Char)) :
    ingestShape (ingestExtractionPhase cid b k mt chunks) := by
  simp only [ingestExtractionPhase]
  split_ifs with h
  · exact errorResult_ingestShape _ _
  · cases hv : _validate_schema_minimal
        (.dict (_merge_extractions (extractionLoop mt 0 chunks).1)) with
    | error e => exact errorResult_ingestShape _ _
    | ok u => exact ingestSuccess_ingestShape _ _ _ _ _ _

/-- The risk success result carries `contract_id` and status
`RISK_ANALYZED`. -/
theorem riskSuccess_riskShape (cid risk : PyValue) (flag : Bool) :
    riskShape (.dict [("contract_id", cid), ("risk", risk),
      ("risk_flag", .str (if flag = true then "HIGH_RISK" else "OK")),
      ("status", .str "RISK_ANALYZED")]) :=
  ⟨_, rfl, rfl, Or.inl rfl⟩

/-- The risk caught-error result carries `contract_id`, status `ERROR` and
an `error` string. -/
theorem riskError_riskShape (cid : PyValue) (e : PyErr) :
    riskShape (.dict [("contract_id", cid), ("status", .str "ERROR"),
      ("error", .str e.msg)]) :=
  ⟨_, rfl, rfl, Or.inr ⟨rfl, e.msg, rfl⟩⟩

/-- A successful try-block value is the `RISK_ANALYZED` response. -/
theorem riskTryBody_ok (cid : PyValue) (th : ℚ) (x : Except PyErr PyValue)
    (r2 : PyValue) (h : riskTryBody cid th x = .ok r2) :
    ∃ risk flag, r2 = PyValue.dict [("contract_id", cid), ("risk", risk),
      ("risk_flag", .str (if flag = true then "HIGH_RISK" else "OK")),
      ("status", .str "RISK_ANALYZED")] := by
  cases x with
  | error e =>
    dsimp only [riskTryBody] at h
    exact Except.noConfusion h
  | ok risk =>
    dsimp only [riskTryBody] at h
    cases hv : _validate_risk_output risk with
    | error e => rw [hv] at h; dsimp only at h; exact Except.noConfusion h
    | ok u =>
      rw [hv] at h
      dsimp only at h
      cases hf : _high_risk_flag th risk with
      | error e => rw [hf] at h; dsimp only at h; exact Except.noConfusion h
      | ok flag =>
        rw [hf] at h
        dsimp only at h
        injection h with h2
        exact ⟨risk, flag, h2.symm⟩

/-- C5 counterexample: both handlers can propagate bare exceptions to the
external caller.  A dict event matching none of the supported source shapes
makes the ingestion handler raise `ValueError` before any shaped result is
built, and an event giving the risk handler neither a contract id nor a
structured contract makes line 272 raise `AttributeError` outside the
try-block. -/
theorem handler_bare_exception_cex :
    ingestion_handler 1000 300 trivialIngestOracle 1
        (.dict [("contract_id", .str "c-1")]) =
      some (.error (.valueError ("Unsupported event format: expected " ++ pySQuote ++
        "s3" ++ pySQuote ++ " or " ++ pySQuote ++ "Records" ++ pySQuote ++
        " with S3 notification")))
  ∧ risk_handler true 7 "fresh" (.ok "") (.dict []) =
      .error (.attributeError (noAttrMsg "NoneType" "get")) :=
  ⟨rfl, rfl⟩

/-- C5 (amended): every result either handler returns normally (rather than
raises) is a dict carrying `contract_id` and a `status` field, with the
status either the success value (`INGESTED` / `RISK_ANALYZED`) or an
error-indicating value (`error` / `ERROR`) accompanied by a `reason` /
`error` string; however, for some input events the handlers do propagate
bare exceptions instead of returning such a result. -/
theorem handlers_shape_normal_results :
    (∀ (mc : Nat) (ts : ℚ) (oracle : IngestOracle) (fuel : Nat) (event r : PyValue),
      ingestion_handler mc ts oracle fuel event = some (.ok r) → ingestShape r)
  ∧ (∀ (rb : Bool) (th : ℚ) (fid : String) (mt : Except PyErr String) (event r : PyValue),
      risk_handler rb th fid mt event = .ok r → riskShape r) := by
  constructor
  · intro mc ts oracle fuel event r h
    cases event
    case dict ed =>
      dsimp only [ingestion_handler] at h
      cases hp : parseEventSource ed with
      | error e =>
        rw [hp] at h
        dsimp only at h
        injection h with h1
        exact Except.noConfusion h1
      | ok bk =>
        obtain ⟨bucket, key⟩ := bk
        rw [hp] at h
        dsimp only at h
        cases hs : oracle.startJob with
        | error e =>
          rw [hs] at h
          dsimp only at h
          injection h with h1
          injection h1 with h2
          exact h2 ▸ errorResult_ingestShape _ _
        | ok jobId =>
          rw [hs] at h
          dsimp only at h
          cases hw : waitPollLoop oracle.poll oracle.pollElapsed ts fuel 0 with
          | none =>
            rw [hw] at h
            dsimp only at h
            exact Option.noConfusion h
          | some wr =>
            obtain ⟨outcome, n⟩ := wr
            rw [hw] at h
            cases outcome with
            | jobFailed resp =>
              dsimp only at h
              injection h with h1
              injection h1 with h2
              exact h2 ▸ errorResult_ingestShape _ _
            | timedOut el resp =>
              dsimp only at h
              injection h with h1
              injection h1 with h2
              exact h2 ▸ errorResult_ingestShape _ _
            | completed resp =>
              dsimp only at h
              cases hg : oracle.getText with
              | error e =>
                rw [hg] at h
                dsimp only at h
                injection h with h1
                injection h1 with h2
                exact h2 ▸ errorResult_ingestShape _ _
              | ok fullText =>
                rw [hg] at h
                dsimp only at h
                by_cases hft : fullText = ""
                · rw [if_pos hft] at h
                  injection h with h1
                  injection h1 with h2
                  exact h2 ▸ errorResult_ingestShape _ _
                · rw [if_neg hft] at h
                  injection h with h1
                  injection h1 with h2
                  exact h2 ▸ ingestPhase_ingestShape _ _ _ _ _
    all_goals
      dsimp only [ingestion_handler] at h
      injection h with h1
      exact Except.noConfusion h1
  · intro rb th fid mt event r h
    dsimp only [risk_handler] at h
    cases he : _extract_structured_contract fid event with
    | error e =>
      rw [he] at h
      dsimp only at h
      exact Except.noConfusion h
    | ok structured =>
      rw [he] at h
      dsimp only at h
      cases hc : riskContractId event structured with
      | error e =>
        rw [hc] at h
        dsimp only at h
        exact Except.noConfusion h
      | ok cid =>
        rw [hc] at h
        dsimp only at h
        cases hb : riskTryBody cid th (riskInvokeModel rb structured mt) with
        | error e =>
          rw [hb] at h
          dsimp only at h
          injection h with h2
          exact h2 ▸ riskError_riskShape cid e
        | ok r2 =>
          rw [hb] at h
          dsimp only at h
          injection h with h2
          obtain ⟨risk, flag, hr2⟩ := riskTryBody_ok cid th _ r2 hb
          exact h2 ▸ hr2 ▸ riskSuccess_riskShape cid risk flag

set_option maxRecDepth 100000 in
/-- Witness for C5 (amended): concrete normally-returned results of both
handlers have the required shape. -/
theorem handlers_shape_normal_results_witness :
    ingestShape c5IngestResult ∧ riskShape c5RiskResult :=
  ⟨handlers_shape_normal_results.1 1000 300 c5IngestOracle 1 c5IngestEvent
      c5IngestResult rfl,
   handlers_shape_normal_results.2 true 7 "fresh" (.error (.clientError "model down"))
      c5RiskEvent c5RiskResult rfl⟩
